import Mathlib

/-!
# Verification of the poker rules engine (web-poker-rpg)

A shallow embedding, in Lean 4, of the engine of the `web-poker-rpg`
repository: the pot ledger (`Pot`, `PotManager` of
`src/engine/BettingStructure.ts`), the hand evaluator and hand ranking
(`src/engine/HandEvaluator.ts`, `HandRank`/`HandRanking`), the hand
lifecycle state machine (`src/engine/GameState.ts`, `HandManager`), the
action-order rules (`ActionOrderRules`), and the supporting models
(`Card`, `Deck`, `Player`, `Table`, `Dealer` of `src/models`).

Conventions of the embedding:
* JavaScript `Map` objects are modelled as association lists
  (`List (key × value)`): lookup finds the first matching key, `set`
  replaces the first matching entry in place or appends a fresh entry,
  which is exactly the observable behaviour of a `Map` (which never holds
  a duplicate key).
* JavaScript `Set` objects are modelled as duplicate-free lists in
  insertion order.
* Chip amounts are natural numbers (the engine only ever stores
  non-negative whole chip counts); card values and hand-ranking fields
  are integers because `compareTo` returns signed differences.
* A TypeScript method that can `throw` is modelled in `Except String`;
  where a claim is about the partial mutations a throw leaves behind
  (`HandManager.startHand`), the method is modelled as returning the
  mutated state together with an optional error, matching the fact that
  a thrown exception does not roll back mutations already performed on
  the object.
* `Math.random`-driven shuffling is modelled by passing the permutation
  (an arbitrary function on the card list) as an explicit parameter.
-/

namespace Poker

abbrev PlayerId := String

/-- Lookup in an association list (JS `Map.get`), first matching key. -/
def mapGet (m : List (PlayerId × Nat)) (k : PlayerId) : Option Nat :=
  (m.find? (fun e => e.1 = k)).map (fun e => e.2)

/-- `Map.get(k) ?? 0`. -/
def mapGetD (m : List (PlayerId × Nat)) (k : PlayerId) : Nat :=
  (mapGet m k).getD 0

/-- JS `Map.set`: replace the first entry with this key in place, or
append a fresh entry. -/
def mapSet (m : List (PlayerId × Nat)) (k : PlayerId) (v : Nat) :
    List (PlayerId × Nat) :=
  match m with
  | [] => [(k, v)]
  | e :: t => if e.1 = k then (k, v) :: t else e :: mapSet t k v

/-- JS `new Set(array)`: keep the first occurrence of each element. -/
def setOfList (l : List PlayerId) : List PlayerId :=
  match l with
  | [] => []
  | a :: t => if a ∈ t then
      -- keep insertion order of first occurrences
      a :: (setOfList t).filter (fun b => b ≠ a)
    else a :: setOfList t

/-!
## Pot (src/engine/BettingStructure.ts, class `Pot`)
-/

/-- `class Pot`: per-player contributions plus the set of players still
eligible to win the pot. -/
structure Pot where
  contributions : List (PlayerId × Nat)
  eligiblePlayerIds : List PlayerId
  deriving DecidableEq, Repr

namespace Pot

/-- `new Pot(eligiblePlayers?)`. -/
def new (eligiblePlayers : List PlayerId := []) : Pot :=
  { contributions := [], eligiblePlayerIds := setOfList eligiblePlayers }

/-- `addContribution(playerId, amount)`: throws when the amount is not
positive, otherwise accumulates the contribution and (re-)adds the
contributor to the eligible set. -/
def addContribution (pot : Pot) (playerId : PlayerId) (amount : Nat) :
    Except String Pot :=
  if amount = 0 then
    .error ("Contribution must be positive")
  else
    let currentAmount := mapGetD pot.contributions playerId
    let contributions := mapSet pot.contributions playerId (currentAmount + amount)
    let eligible :=
      if playerId ∈ pot.eligiblePlayerIds then pot.eligiblePlayerIds
      else pot.eligiblePlayerIds ++ [playerId]
    .ok { contributions := contributions, eligiblePlayerIds := eligible }

/-- `get total()`: sum of all contributions. -/
def total (pot : Pot) : Nat :=
  (pot.contributions.map (fun e => e.2)).sum

/-- `getPlayerContribution(playerId)`. -/
def getPlayerContribution (pot : Pot) (playerId : PlayerId) : Nat :=
  mapGetD pot.contributions playerId

/-- `isPlayerEligible(playerId)`. -/
def isPlayerEligible (pot : Pot) (playerId : PlayerId) : Bool :=
  playerId ∈ pot.eligiblePlayerIds

/-- `removePlayerEligibility(playerId)` (JS `Set.delete`). -/
def removePlayerEligibility (pot : Pot) (playerId : PlayerId) : Pot :=
  { pot with eligiblePlayerIds := pot.eligiblePlayerIds.filter (fun b => b ≠ playerId) }

end Pot

/-!
## PotManager (src/engine/BettingStructure.ts, class `PotManager`)
-/

/-- `class PotManager`: one main pot plus side pots in creation order. -/
structure PotManager where
  mainPot : Pot
  sidePots : List Pot
  deriving DecidableEq, Repr

namespace PotManager

/-- `new PotManager()`. -/
def new : PotManager := { mainPot := Pot.new, sidePots := [] }

/-- `getTotalPotAmount()`. -/
def getTotalPotAmount (pm : PotManager) : Nat :=
  pm.mainPot.total + (pm.sidePots.map Pot.total).sum

/-- The loop body of `collectBets` over one bet level: collect the
increment from every contributing player into the fresh pot while
deducting it from their remaining contribution. -/
def collectFromPlayers (amt : Nat) (ps : List PlayerId) (pot : Pot)
    (remaining : List (PlayerId × Nat)) :
    Except String (Pot × List (PlayerId × Nat)) :=
  match ps with
  | [] => .ok (pot, remaining)
  | p :: t =>
    match pot.addContribution p amt with
    | .error e => .error e
    | .ok pot' =>
      collectFromPlayers amt t pot' (mapSet remaining p (mapGetD remaining p - amt))

/-- The `for (let i = 0; ...)` loop of `collectBets` over the sorted
distinct bet levels; `prev` is `uniqueBetAmounts[i-1]` (0 for the first
level, and the previous array element even when a level contributes no
pot and is skipped). -/
def collectLevels (foldedPlayers : List PlayerId) :
    Nat → List Nat → List (PlayerId × Nat) → PotManager →
    Except String PotManager
  | _, [], _, pm => .ok pm
  | prev, level :: rest, remaining, pm =>
    let contributionAmount := level - prev
    let contributingPlayers :=
      ((remaining.filter (fun e => contributionAmount ≤ e.2)).map (fun e => e.1))
    if contributingPlayers.isEmpty then
      collectLevels foldedPlayers level rest remaining pm
    else
      let eligiblePlayers := contributingPlayers.filter (fun id => id ∉ foldedPlayers)
      match collectFromPlayers contributionAmount contributingPlayers
          (Pot.new eligiblePlayers) remaining with
      | .error e => .error e
      | .ok (pot, remaining') =>
        let pot := foldedPlayers.foldl (fun po f => po.removePlayerEligibility f) pot
        let pm' :=
          if pm.mainPot.total = 0 then { pm with mainPot := pot }
          else { pm with sidePots := pm.sidePots ++ [pot] }
        collectLevels foldedPlayers level rest remaining' pm'

/-- `collectBets(playerBets, allInPlayers, foldedPlayers)`: layer the
street contributions into the main pot and side pots by distinct positive
bet level.  (`allInPlayers` is accepted but never read, exactly as in the
source.)  The JS `[...new Set(xs)].sort((a,b) => a-b)` is modelled as
`dedup` followed by an ascending insertion sort, which produces the same
sorted duplicate-free list. -/
def collectBets (pm : PotManager) (playerBets : List (PlayerId × Nat))
    (allInPlayers : List PlayerId) (foldedPlayers : List PlayerId) :
    Except String PotManager :=
  let _ := allInPlayers
  if playerBets.isEmpty then .ok pm
  else
    let uniqueBetAmounts :=
      List.insertionSort (fun a b => a ≤ b)
        (((playerBets.map (fun e => e.2)).filter (fun amt => 0 < amt)).dedup)
    if uniqueBetAmounts.isEmpty then .ok pm
    else collectLevels foldedPlayers 0 uniqueBetAmounts playerBets pm

/-- The indexed loop of `distributeSinglePot`: the first eligible winner
receives the remainder on top of the even share. -/
def creditWinners (winnings : List (PlayerId × Nat)) (amountPerWinner remainder : Nat) :
    List PlayerId → Bool → List (PlayerId × Nat)
  | [], _ => winnings
  | w :: ws, isFirst =>
    let amount := if isFirst then amountPerWinner + remainder else amountPerWinner
    creditWinners (mapSet winnings w (mapGetD winnings w + amount))
      amountPerWinner remainder ws false

/-- `distributeSinglePot(pot, winners, winnings)`: split the pot total by
integer division among the supplied winners that are eligible for this
pot; the first eligible winner also receives the odd-chip remainder.  A
pot with no eligible winner (or an empty pot) leaves the winnings map
untouched. -/
def distributeSinglePot (pot : Pot) (winners : List PlayerId)
    (winnings : List (PlayerId × Nat)) : List (PlayerId × Nat) :=
  if pot.total = 0 then winnings
  else
    let eligibleWinners := winners.filter (fun w => pot.isPlayerEligible w)
    if eligibleWinners.isEmpty then winnings
    else
      let amountPerWinner := pot.total / eligibleWinners.length
      let remainder := pot.total % eligibleWinners.length
      creditWinners winnings amountPerWinner remainder eligibleWinners true

/-- `distributePots(winners)`: main pot first, then each side pot in
order, accumulating into one winnings map. -/
def distributePots (pm : PotManager) (winners : List PlayerId) :
    List (PlayerId × Nat) :=
  let winnings := distributeSinglePot pm.mainPot winners []
  pm.sidePots.foldl (fun acc sidePot => distributeSinglePot sidePot winners acc) winnings

end PotManager

/-!
## Card model (src/models/Card.ts)
-/

/-- `enum Suit`. -/
inductive Suit where
  | spades | hearts | diamonds | clubs
  deriving DecidableEq, Repr, Fintype

/-- `enum Rank`. -/
inductive Rank where
  | two | three | four | five | six | seven | eight | nine | ten
  | jack | queen | king | ace
  deriving DecidableEq, Repr

/-- `RANK_VALUES`: numeric rank value, Ace high.  Values are integers
because the hand evaluator and `compareTo` compute signed differences. -/
def Rank.value : Rank → Int
  | .two => 2 | .three => 3 | .four => 4 | .five => 5 | .six => 6
  | .seven => 7 | .eight => 8 | .nine => 9 | .ten => 10
  | .jack => 11 | .queen => 12 | .king => 13 | .ace => 14

/-- `class Card`: an immutable rank-and-suit pair. -/
structure Card where
  rank : Rank
  suit : Suit
  deriving DecidableEq, Repr

/-- `get value()`. -/
def Card.value (c : Card) : Int := c.rank.value

/-!
## HandRank and HandRanking (src/engine/HandRanking.ts)
-/

/-- `enum HandRank`, ten tiers from `HighCard = 0` up to `RoyalFlush = 9`. -/
inductive HandRank where
  | highCard | pair | twoPair | threeOfAKind | straight | flush
  | fullHouse | fourOfAKind | straightFlush | royalFlush
  deriving DecidableEq, Repr, Fintype

/-- The numeric value of each `HandRank` enum member. -/
def HandRank.value : HandRank → Int
  | .highCard => 0 | .pair => 1 | .twoPair => 2 | .threeOfAKind => 3
  | .straight => 4 | .flush => 5 | .fullHouse => 6 | .fourOfAKind => 7
  | .straightFlush => 8 | .royalFlush => 9

/-- `class HandRanking`: the evaluated hand.  `secondaryValue` and
`kickers` default to `0` and `[]` as in the constructor. -/
structure HandRanking where
  rank : HandRank
  cards : List Card
  primaryValue : Int
  secondaryValue : Int := 0
  kickers : List Int := []
  deriving DecidableEq, Repr

namespace HandRanking

/-- The tail of the kicker loop of `compareTo` once this side's list is
exhausted: each remaining entry of the other list is compared against
the `?? 0` default. -/
def zerosCmp : List Int → Int
  | [] => 0
  | b :: bs => if (0 : Int) ≠ b then 0 - b else zerosCmp bs

/-- The kicker loop of `compareTo`: compares index by index up to the
longer of the two lists, reading a missing entry as `0`
(`this.kickers[i] ?? 0`). -/
def kickersCmp : List Int → List Int → Int
  | [], bs => zerosCmp bs
  | a :: as, [] => if a ≠ 0 then a - 0 else kickersCmp as []
  | a :: as, b :: bs => if a ≠ b then a - b else kickersCmp as bs

/-- `compareTo(other)`: rank, then primary value, then secondary value,
then kickers; the result is a signed difference. -/
def compareTo (this other : HandRanking) : Int :=
  if this.rank ≠ other.rank then this.rank.value - other.rank.value
  else if this.primaryValue ≠ other.primaryValue then
    this.primaryValue - other.primaryValue
  else if this.secondaryValue ≠ other.secondaryValue then
    this.secondaryValue - other.secondaryValue
  else kickersCmp this.kickers other.kickers

end HandRanking

/-!
## HandEvaluator (src/engine/HandEvaluator.ts)
-/

namespace HandEvaluator

/-- One step of `groupByRank`: append the card to its rank group
(JS `Map` keyed by value, insertion order preserved). -/
def addToGroup : List (Int × List Card) → Card → List (Int × List Card)
  | [], c => [(c.value, [c])]
  | (k, g) :: t, c =>
    if k = c.value then (k, g ++ [c]) :: t else (k, g) :: addToGroup t c

/-- `groupByRank(cards)`. -/
def groupByRank (cards : List Card) : List (Int × List Card) :=
  cards.foldl addToGroup []

/-- `isFlush(cards)`: every card has the suit of the first card. -/
def isFlush (cards : List Card) : Bool :=
  match cards with
  | [] => true
  | c :: _ => cards.all (fun x => x.suit = c.suit)

/-- The `every` check of `getStraightHighCard`: each value is exactly one
below its predecessor (the list is descending). -/
def isConsecutiveDesc : List Int → Bool
  | [] => true
  | [_] => true
  | a :: b :: t => (b = a - 1) && isConsecutiveDesc (b :: t)

/-- `getStraightHighCard(cards)`: the distinct card values sorted
descending must be five consecutive values (high card returned), or the
wheel `A-5-4-3-2` (high card 5); otherwise `null`. -/
def getStraightHighCard (cards : List Card) : Option Int :=
  let values :=
    List.insertionSort (fun a b => b ≤ a) ((cards.map Card.value).dedup)
  if values.length ≠ 5 then none
  else if isConsecutiveDesc values then some (values.headD 0)
  else if values = [14, 5, 4, 3, 2] then some 5
  else none

/-- `checkStraightFlush(cards)`. -/
def checkStraightFlush (cards : List Card) : Option HandRanking :=
  match getStraightHighCard cards with
  | some high =>
    if isFlush cards then
      some { rank := .straightFlush, cards := cards, primaryValue := high }
    else none
  | none => none

/-- `checkRoyalFlush(cards)`: an ace-high straight flush. -/
def checkRoyalFlush (cards : List Card) : Option HandRanking :=
  match checkStraightFlush cards with
  | some sf =>
    if sf.primaryValue = 14 then
      some { rank := .royalFlush, cards := cards, primaryValue := 14 }
    else none
  | none => none

/-- `checkFourOfAKind(cards)`: the loop returns on the first group of
four; the kicker is the first card of a different value (`?? 0`). -/
def checkFourOfAKind (cards : List Card) : Option HandRanking :=
  match (groupByRank cards).find? (fun g => g.2.length = 4) with
  | some (rank, _) =>
    let kicker := ((cards.find? (fun c => c.value ≠ rank)).map Card.value).getD 0
    some { rank := .fourOfAKind, cards := cards, primaryValue := rank,
           kickers := [kicker] }
  | none => none

/-- `checkFullHouse(cards)`: the loop keeps the last group of three and
the last group of two (assignment without early return). -/
def checkFullHouse (cards : List Card) : Option HandRanking :=
  let threeRank := ((groupByRank cards).filter (fun g => g.2.length = 3)).getLast?
  let pairRank := ((groupByRank cards).filter (fun g => g.2.length = 2)).getLast?
  match threeRank, pairRank with
  | some (t, _), some (p, _) =>
    some { rank := .fullHouse, cards := cards, primaryValue := t,
           secondaryValue := p }
  | _, _ => none

/-- `checkFlush(cards)`. -/
def checkFlush (cards : List Card) : Option HandRanking :=
  if isFlush cards then
    let values := List.insertionSort (fun a b => b ≤ a) (cards.map Card.value)
    some { rank := .flush, cards := cards, primaryValue := values.headD 0,
           kickers := values.drop 1 }
  else none

/-- `checkStraight(cards)`. -/
def checkStraight (cards : List Card) : Option HandRanking :=
  match getStraightHighCard cards with
  | some high => some { rank := .straight, cards := cards, primaryValue := high }
  | none => none

/-- `checkThreeOfAKind(cards)`: first group of three; the other two card
values, descending, are the kickers. -/
def checkThreeOfAKind (cards : List Card) : Option HandRanking :=
  match (groupByRank cards).find? (fun g => g.2.length = 3) with
  | some (rank, _) =>
    let kickers := List.insertionSort (fun a b => b ≤ a)
      ((cards.filter (fun c => c.value ≠ rank)).map Card.value)
    some { rank := .threeOfAKind, cards := cards, primaryValue := rank,
           kickers := kickers }
  | none => none

/-- `checkTwoPair(cards)`: exactly two groups of two; the higher pair is
primary, the lower secondary, and the remaining card the kicker. -/
def checkTwoPair (cards : List Card) : Option HandRanking :=
  let pairs := ((groupByRank cards).filter (fun g => g.2.length = 2)).map (fun g => g.1)
  if pairs.length = 2 then
    let sorted := List.insertionSort (fun a b => b ≤ a) pairs
    let kicker :=
      ((cards.find? (fun c => c.value ∉ sorted)).map Card.value).getD 0
    some { rank := .twoPair, cards := cards, primaryValue := sorted.headD 0,
           secondaryValue := (sorted.drop 1).headD 0, kickers := [kicker] }
  else none

/-- `checkPair(cards)`: first group of two; the other three card values,
descending, are the kickers. -/
def checkPair (cards : List Card) : Option HandRanking :=
  match (groupByRank cards).find? (fun g => g.2.length = 2) with
  | some (rank, _) =>
    let kickers := List.insertionSort (fun a b => b ≤ a)
      ((cards.filter (fun c => c.value ≠ rank)).map Card.value)
    some { rank := .pair, cards := cards, primaryValue := rank,
           kickers := kickers }
  | none => none

/-- `checkHighCard(cards)`. -/
def checkHighCard (cards : List Card) : HandRanking :=
  let values := List.insertionSort (fun a b => b ≤ a) (cards.map Card.value)
  { rank := .highCard, cards := cards, primaryValue := values.headD 0,
    kickers := values.drop 1 }

/-- `evaluateHand(cards)`: throws unless exactly five cards; sorts the
cards by value descending (the stable JS sort is modelled by a stable
insertion sort) and tries each hand category from highest to lowest. -/
def evaluateHand (cards : List Card) : Except String HandRanking :=
  if cards.length ≠ 5 then
    .error ("Expected 5 cards, got " ++ toString cards.length)
  else
    let sorted := List.insertionSort (fun a b => b.value ≤ a.value) cards
    let best :=
      (checkRoyalFlush sorted) <|> (checkStraightFlush sorted) <|>
      (checkFourOfAKind sorted) <|> (checkFullHouse sorted) <|>
      (checkFlush sorted) <|> (checkStraight sorted) <|>
      (checkThreeOfAKind sorted) <|> (checkTwoPair sorted) <|>
      (checkPair sorted)
    .ok (best.getD (checkHighCard sorted))

/-- `get5CardCombinations(cards)`: all five-element subsequences, in the
lexicographic index order produced by the five nested loops of the
source. -/
def combosOfLen : Nat → List Card → List (List Card)
  | 0, _ => [[]]
  | _ + 1, [] => []
  | k + 1, c :: t =>
    ((combosOfLen k t).map (fun l => c :: l)) ++ combosOfLen (k + 1) t

/-- `evaluateBest7CardHand(cards)`: throws unless exactly seven cards;
evaluates all 21 five-card combinations and keeps the first hand that is
strictly better than the best so far.  The final `bestHand!` non-null
assertion is modelled by an error on the (unreachable) empty-combination
case. -/
def evaluateBest7CardHand (cards : List Card) : Except String HandRanking :=
  if cards.length ≠ 7 then
    .error ("Expected 7 cards, got " ++ toString cards.length)
  else do
    let combos := combosOfLen 5 cards
    let best ← combos.foldlM
      (fun (best : Option HandRanking) combo => do
        let hand ← evaluateHand combo
        match best with
        | none => pure (some hand)
        | some b => pure (if 0 < hand.compareTo b then some hand else some b))
      none
    match best with
    | some b => pure b
    | none => .error ("no five-card combination found")

end HandEvaluator

/-!
## Game state machine (src/engine/GameState.ts)
-/

/-- `enum GameState`: the lifecycle states of one hand. -/
inductive GameState where
  | waitingForPlayers | readyToStart
  | postingBlinds | dealingHoleCards | preflopBetting
  | dealingFlop | flopBetting | dealingTurn | turnBetting
  | dealingRiver | riverBetting | showdown
  | handComplete | gameOver
  deriving DecidableEq, Repr, Fintype

/-- The string value of each `GameState` enum member. -/
def GameState.toStr : GameState → String
  | .waitingForPlayers => "WAITING_FOR_PLAYERS"
  | .readyToStart => "READY_TO_START"
  | .postingBlinds => "POSTING_BLINDS"
  | .dealingHoleCards => "DEALING_HOLE_CARDS"
  | .preflopBetting => "PREFLOP_BETTING"
  | .dealingFlop => "DEALING_FLOP"
  | .flopBetting => "FLOP_BETTING"
  | .dealingTurn => "DEALING_TURN"
  | .turnBetting => "TURN_BETTING"
  | .dealingRiver => "DEALING_RIVER"
  | .riverBetting => "RIVER_BETTING"
  | .showdown => "SHOWDOWN"
  | .handComplete => "HAND_COMPLETE"
  | .gameOver => "GAME_OVER"

/-- The `validTransitions` record of `isValidTransition`. -/
def validTransitions : GameState → List GameState
  | .waitingForPlayers => [.readyToStart]
  | .readyToStart => [.postingBlinds]
  | .postingBlinds => [.dealingHoleCards]
  | .dealingHoleCards => [.preflopBetting]
  | .preflopBetting => [.dealingFlop, .showdown, .handComplete]
  | .dealingFlop => [.flopBetting]
  | .flopBetting => [.dealingTurn, .showdown, .handComplete]
  | .dealingTurn => [.turnBetting]
  | .turnBetting => [.dealingRiver, .showdown, .handComplete]
  | .dealingRiver => [.riverBetting]
  | .riverBetting => [.showdown, .handComplete]
  | .showdown => [.handComplete]
  | .handComplete => [.readyToStart, .gameOver]
  | .gameOver => []

/-- `isValidTransition(from, to)`. -/
def isValidTransition (fromState toState : GameState) : Bool :=
  (validTransitions fromState).contains toState

/-!
## Player (src/models/Player.ts)
-/

/-- `enum PlayerStatus`. -/
inductive PlayerStatus where
  | active | folded | allIn | sittingOut | eliminated
  deriving DecidableEq, Repr

/-- The string value of each `PlayerStatus` enum member. -/
def PlayerStatus.toStr : PlayerStatus → String
  | .active => "ACTIVE"
  | .folded => "FOLDED"
  | .allIn => "ALL_IN"
  | .sittingOut => "SITTING_OUT"
  | .eliminated => "ELIMINATED"

/-- `enum PlayerAction`. -/
inductive PlayerAction where
  | fold | check | call | bet | raise | allIn
  deriving DecidableEq, Repr

/-- `class Player`: a seated player with chips, hole cards, the bet
committed this street, a status and the last action taken. -/
structure Player where
  id : PlayerId
  name : String
  holeCards : List Card
  chipCount : Nat
  currentBet : Nat
  status : PlayerStatus
  lastAction : Option PlayerAction
  deriving DecidableEq, Repr

namespace Player

/-- `new Player(id, name, initialChips)`. -/
def new (id : PlayerId) (name : String) (initialChips : Nat := 0) : Player :=
  { id := id, name := name, holeCards := [], chipCount := initialChips,
    currentBet := 0, status := .active, lastAction := none }

/-- `get chips()`. -/
def chips (p : Player) : Nat := p.chipCount

/-- `get currentBetAmount()`. -/
def currentBetAmount (p : Player) : Nat := p.currentBet

/-- `get hasFolded()`. -/
def hasFolded (p : Player) : Bool := p.status = .folded

/-- `get isAllIn()`. -/
def isAllIn (p : Player) : Bool := p.status = .allIn

/-- `get isActive()`. -/
def isActive (p : Player) : Bool := p.status = .active

/-- `get isEliminated()`. -/
def isEliminated (p : Player) : Bool := p.chips = 0 || p.status = .eliminated

/-- `removeChips(amount)`: throws on a non-positive amount, otherwise
removes at most the available chips and returns the amount actually
removed. -/
def removeChips (p : Player) (amount : Nat) : Except String (Player × Nat) :=
  if amount = 0 then .error ("Cannot remove zero or negative chips")
  else
    let actualAmount := min amount p.chips
    .ok ({ p with chipCount := p.chipCount - actualAmount }, actualAmount)

/-- `addChips(amount)`: throws on a non-positive amount; revives an
eliminated player who receives chips. -/
def addChips (p : Player) (amount : Nat) : Except String Player :=
  if amount = 0 then .error ("Cannot add zero or negative chips")
  else
    let p := { p with chipCount := p.chipCount + amount }
    if p.status = .eliminated && 0 < p.chips then
      .ok { p with status := .active }
    else .ok p

/-- `bet(amount)`: only an active player with no standing bet may bet;
betting every last chip makes the player all-in. -/
def bet (p : Player) (amount : Nat) : Except String (Player × Nat) :=
  if p.status ≠ .active then
    .error ("Cannot bet: player is " ++ p.status.toStr)
  else if 0 < p.currentBet then
    .error ("Cannot bet after already betting (use raise instead)")
  else
    match p.removeChips amount with
    | .error e => .error e
    | .ok (p, actualAmount) =>
      let p := { p with currentBet := actualAmount }
      if p.chips = 0 then
        .ok ({ p with status := .allIn, lastAction := some .allIn }, actualAmount)
      else
        .ok ({ p with lastAction := some .bet }, actualAmount)

/-- `getHoleCards()`: a folded or sitting-out player shows no cards. -/
def getHoleCards (p : Player) : List Card :=
  if p.status = .folded || p.status = .sittingOut then [] else p.holeCards

/-- `receiveCards(cards)`. -/
def receiveCards (p : Player) (cards : List Card) : Player :=
  { p with holeCards := cards }

/-- `resetBet()`. -/
def resetBet (p : Player) : Player :=
  { p with currentBet := 0, lastAction := none }

/-- `resetForNewHand()`: clear cards, bet and last action; a folded or
all-in player becomes active again (or eliminated when out of chips). -/
def resetForNewHand (p : Player) : Player :=
  let p := { p with holeCards := [], currentBet := 0, lastAction := none }
  if p.status = .folded || p.status = .allIn then
    { p with status := if 0 < p.chips then .active else .eliminated }
  else p

end Player

/-!
## Table (src/models/Table.ts)
-/

/-- `interface Seat`. -/
structure Seat where
  position : Nat
  player : Option Player
  isEmpty : Bool
  deriving DecidableEq, Repr

/-- `interface TableConfig`. -/
structure TableConfig where
  maxSeats : Nat
  smallBlind : Nat
  bigBlind : Nat
  deriving DecidableEq, Repr

/-- `class Table`: a ring of seats, the dealer button position and the
community cards.  Players live inside their seats; a TypeScript mutation
of a player object referenced from a seat is modelled by updating that
seat. -/
structure Table where
  seats : List Seat
  buttonPosition : Nat
  communityCards : List Card
  config : TableConfig
  deriving DecidableEq, Repr

namespace Table

/-- `new Table(config)`: `maxSeats` empty seats, button at 0. -/
def new (config : TableConfig) : Table :=
  { seats := (List.range config.maxSeats).map
      (fun i => { position := i, player := none, isEmpty := true }),
    buttonPosition := 0, communityCards := [], config := config }

/-- `getPlayers()`: the players of the occupied seats, in seat order. -/
def getPlayers (t : Table) : List Player :=
  (t.seats.filter (fun s => !s.isEmpty)).filterMap (fun s => s.player)

/-- `getActivePlayers()`: not folded, not sitting out (all-in players
are included). -/
def getActivePlayers (t : Table) : List Player :=
  t.getPlayers.filter (fun p => p.status = .active || p.status = .allIn)

/-- `get playerCount()`. -/
def playerCount (t : Table) : Nat :=
  (t.seats.filter (fun s => !s.isEmpty)).length

/-- `getPlayerAtSeat(position)`. -/
def getPlayerAtSeat (t : Table) (position : Nat) : Option Player :=
  (t.seats.get? position).bind (fun s => s.player)

/-- `getPlayer(playerId)`: the player of the first seat holding this
id. -/
def getPlayer (t : Table) (playerId : PlayerId) : Option Player :=
  (t.seats.find? (fun s =>
    match s.player with
    | some p => p.id = playerId
    | none => false)).bind (fun s => s.player)

/-- `getButtonPosition()`. -/
def getButtonPosition (t : Table) : Nat := t.buttonPosition

/-- Replace the player object stored at a seat position (the effect of a
TypeScript mutation through the seat's reference). -/
def setPlayerAtSeat (t : Table) (position : Nat) (p : Player) : Table :=
  { t with seats := t.seats.map (fun s =>
                if s.position = position then { s with player := some p } else s) }

/-- Replace the player object holding this id (the effect of a
TypeScript mutation through a captured player reference). -/
def setPlayerById (t : Table) (playerId : PlayerId) (p : Player) : Table :=
  { t with seats := t.seats.map (fun s =>
                match s.player with
                | some q => if q.id = playerId then { s with player := some p } else s
                | none => s) }

/-- The skip condition of the blind-search `while` loops: the seat is
empty or its player is sitting out (an out-of-range index reads as
`undefined`, which is falsy). -/
def blindSkip (t : Table) (position : Nat) : Bool :=
  match t.seats.get? position with
  | none => false
  | some s =>
    s.isEmpty ||
      (match s.player with
       | some p => p.status = .sittingOut
       | none => false)

/-- The bounded `while` loop of the blind searches: advance while the
skip condition holds; with `fuel = maxSeats - attempts`, exhausting the
attempt budget yields `null`. -/
def blindSearch (t : Table) : Nat → Nat → Option Nat
  | _, 0 => none
  | position, fuel + 1 =>
    if t.blindSkip position then
      t.blindSearch ((position + 1) % t.config.maxSeats) fuel
    else some position

/-- `getSmallBlindPosition()`: heads-up the button is the small blind;
multi-way it is the next occupied, not sitting-out seat after the
button. -/
def getSmallBlindPosition (t : Table) : Option Nat :=
  if t.playerCount < 2 then none
  else if t.playerCount = 2 then some t.buttonPosition
  else t.blindSearch ((t.buttonPosition + 1) % t.config.maxSeats) t.config.maxSeats

/-- `getBigBlindPosition()`: heads-up the non-button seat; multi-way the
next eligible seat after the small blind. -/
def getBigBlindPosition (t : Table) : Option Nat :=
  if t.playerCount < 2 then none
  else if t.playerCount = 2 then
    t.blindSearch ((t.buttonPosition + 1) % t.config.maxSeats) t.config.maxSeats
  else
    match t.getSmallBlindPosition with
    | none => none
    | some sbPosition =>
      t.blindSearch ((sbPosition + 1) % t.config.maxSeats) t.config.maxSeats

/-- `getSmallBlindPlayer()`. -/
def getSmallBlindPlayer (t : Table) : Option Player :=
  t.getSmallBlindPosition.bind (fun position => t.getPlayerAtSeat position)

/-- `getBigBlindPlayer()`. -/
def getBigBlindPlayer (t : Table) : Option Player :=
  t.getBigBlindPosition.bind (fun position => t.getPlayerAtSeat position)

/-- `setCommunityCards(cards)`. -/
def setCommunityCards (t : Table) (cards : List Card) : Table :=
  { t with communityCards := cards }

/-- `getCommunityCards()`. -/
def getCommunityCards (t : Table) : List Card := t.communityCards

/-- `resetForNewHand()`: clear the board and reset every seated
player. -/
def resetForNewHand (t : Table) : Table :=
  { t with communityCards := [],
           seats := t.seats.map (fun s =>
                      match s.player with
                      | some p => { s with player := some p.resetForNewHand }
                      | none => s) }

end Table

/-!
## Deck (src/models/Deck.ts)
-/

/-- `class Deck`: remaining cards (the top of the deck is the end of the
array, `pop`) and the cards dealt so far. -/
structure Deck where
  cards : List Card
  dealtCards : List Card
  deriving DecidableEq, Repr

/-- The 52-card list built by `Deck.reset()`, suit-major in source
order. -/
def standardCards : List Card :=
  [Suit.spades, Suit.hearts, Suit.diamonds, Suit.clubs].flatMap (fun s =>
    [Rank.two, Rank.three, Rank.four, Rank.five, Rank.six, Rank.seven,
     Rank.eight, Rank.nine, Rank.ten, Rank.jack, Rank.queen, Rank.king,
     Rank.ace].map (fun r => { rank := r, suit := s }))

namespace Deck

/-- `reset()`. -/
def reset : Deck := { cards := standardCards, dealtCards := [] }

/-- `dealCard()`: pop the last card; throws on an empty deck. -/
def dealCard (d : Deck) : Except String (Card × Deck) :=
  match d.cards.getLast? with
  | none => .error ("Cannot deal from empty deck")
  | some c =>
    .ok (c, { cards := d.cards.dropLast, dealtCards := d.dealtCards ++ [c] })

end Deck

/-!
## ActionOrderRules (src/engine/ActionOrderRules.ts)
-/

/-- `enum BettingStreet`. -/
inductive BettingStreet where
  | preflop | flop | turn | river
  deriving DecidableEq, Repr

/-- `interface ActionOrderResult`. -/
structure ActionOrderResult where
  playerOrder : List PlayerId
  startingBet : Nat
  deriving DecidableEq, Repr

namespace ActionOrderRules

/-- The clockwise distance used by `sortByDistanceFromPosition`,
`(a - startPos + maxSeats) % maxSeats` over JS numbers (signed, with the
JS remainder operator). -/
def clockDist (a startPos maxSeats : Nat) : Int :=
  Int.tmod ((a : Int) - (startPos : Int) + (maxSeats : Int)) (maxSeats : Int)

/-- `sortByDistanceFromPosition(positions, startPos, maxSeats)`: stable
ascending sort by clockwise distance from the start position. -/
def sortByDistanceFromPosition (positions : List Nat) (startPos maxSeats : Nat) :
    List Nat :=
  List.insertionSort
    (fun a b => clockDist a startPos maxSeats ≤ clockDist b startPos maxSeats)
    positions

/-- `getPreflopOrder(table, activePlayers)`: heads-up the button acts
first; multi-way the sort is anchored at the big blind, which is rotated
to the end when it came out first.  The starting bet is the big blind
player's current bet (`?? 0`).  JS `findIndex` results of `-1` are
filtered out, which is modelled by `findIdx?`/`filterMap`; a `null` big
blind position coerces to `0` inside the distance arithmetic and never
matches in `indexOf`. -/
def getPreflopOrder (t : Table) (activePlayers : List Player) : ActionOrderResult :=
  let buttonPos := t.getButtonPosition
  let bbPos := t.getBigBlindPosition
  let bbPlayer := t.getBigBlindPlayer
  let allPlayers := t.getPlayers
  let maxSeats := t.config.maxSeats
  let activePositions :=
    activePlayers.filterMap (fun p => allPlayers.findIdx? (fun q => q.id = p.id))
  let orderedPositions :=
    if activePlayers.length = 2 then
      sortByDistanceFromPosition activePositions buttonPos maxSeats
    else
      let sorted :=
        sortByDistanceFromPosition activePositions (bbPos.getD 0) maxSeats
      match bbPos with
      | some bb =>
        if sorted.head? = some bb then sorted.drop 1 ++ sorted.take 1 else sorted
      | none => sorted
  let playerOrder :=
    orderedPositions.filterMap (fun pos => (allPlayers.get? pos).map (fun p => p.id))
  { playerOrder := playerOrder,
    startingBet := (bbPlayer.map (fun p => p.currentBetAmount)).getD 0 }

/-- `getPostFlopOrder(table, activePlayers)`: sort anchored at the
button, which is rotated to the end when it came out first; the starting
bet is always 0. -/
def getPostFlopOrder (t : Table) (activePlayers : List Player) : ActionOrderResult :=
  let buttonPos := t.getButtonPosition
  let allPlayers := t.getPlayers
  let maxSeats := t.config.maxSeats
  let activePositions :=
    activePlayers.filterMap (fun p => allPlayers.findIdx? (fun q => q.id = p.id))
  let sorted := sortByDistanceFromPosition activePositions buttonPos maxSeats
  let orderedPositions :=
    if sorted.head? = some buttonPos ∧ 1 < sorted.length then
      sorted.drop 1 ++ sorted.take 1
    else sorted
  let playerOrder :=
    orderedPositions.filterMap (fun pos => (allPlayers.get? pos).map (fun p => p.id))
  { playerOrder := playerOrder, startingBet := 0 }

/-- `getActionOrder(table, street)`. -/
def getActionOrder (t : Table) (street : BettingStreet) : ActionOrderResult :=
  let activePlayers := t.getActivePlayers
  if activePlayers.isEmpty then { playerOrder := [], startingBet := 0 }
  else if street = .preflop then getPreflopOrder t activePlayers
  else getPostFlopOrder t activePlayers

end ActionOrderRules

/-!
## BettingRoundTracker (src/engine/BettingStructure.ts)
-/

/-- `enum BettingRound`. -/
inductive BettingRound where
  | preflop | flop | turn | river | showdown
  deriving DecidableEq, Repr

/-- `toStreet(round)`. -/
def toStreet : BettingRound → Option BettingStreet
  | .preflop => some .preflop
  | .flop => some .flop
  | .turn => some .turn
  | .river => some .river
  | .showdown => none

/-- `class BettingRoundTracker`: the per-street cursor state.  The
tracker also holds a reference to the table; only its construction (the
part exercised by `startHand`) is modelled here. -/
structure BettingRoundTracker where
  round : BettingRound
  currentBetAmount : Nat
  lastRaiserPosition : Int
  playerIdOrder : List PlayerId
  currentActionIndex : Nat
  playersActed : List PlayerId
  deriving DecidableEq, Repr

/-- `new BettingRoundTracker(table, round)` followed by
`initializeActionOrder()`. -/
def BettingRoundTracker.new (t : Table) (round : BettingRound) :
    BettingRoundTracker :=
  match toStreet round with
  | none =>
    { round := round, currentBetAmount := 0, lastRaiserPosition := -1,
      playerIdOrder := [], currentActionIndex := 0, playersActed := [] }
  | some street =>
    let orderResult := ActionOrderRules.getActionOrder t street
    { round := round, currentBetAmount := orderResult.startingBet,
      lastRaiserPosition := -1, playerIdOrder := orderResult.playerOrder,
      currentActionIndex := 0, playersActed := [] }

/-!
## Dealer (src/models/Dealer.ts)
-/

namespace Dealer

/-- `prepareNewHand()`: reset and shuffle the deck, reset the table.
The `Math.random` shuffle is the supplied permutation of the fresh
52-card list. -/
def prepareNewHand (shuffle : List Card → List Card) (t : Table) :
    Table × Deck :=
  (t.resetForNewHand, { cards := shuffle standardCards, dealtCards := [] })

/-- The dealing loop of `dealHoleCards()`: deal one card to each listed
player in turn, appending it to the cards the player already holds.  A
deal failure stops the loop but keeps the mutations performed so far
(TypeScript exceptions do not roll back). -/
def dealToEach : List PlayerId → Table → Deck → (Table × Deck) × Option String
  | [], t, d => ((t, d), none)
  | pid :: rest, t, d =>
    match d.dealCard with
    | .error e => ((t, d), some e)
    | .ok (card, d') =>
      match t.getPlayer pid with
      | none => dealToEach rest t d'
      | some p =>
        let t' := t.setPlayerById pid (p.receiveCards (p.getHoleCards ++ [card]))
        dealToEach rest t' d'

/-- `dealHoleCards()`: two round-robin passes over the active players
(captured once, as the list of references is in the source). -/
def dealHoleCards (t : Table) (d : Deck) : (Table × Deck) × Option String :=
  let players := t.getActivePlayers.map (fun p => p.id)
  if players.length < 2 then ((t, d), some ("Need at least 2 players to deal"))
  else dealToEach (players ++ players) t d

/-- `determineWinners()`: rank every non-folded player and keep all
players tied for the best hand; a lone remaining player wins with a
truncated or dummy ranking. -/
def determineWinners (t : Table) :
    Except String (List (Player × HandRanking)) :=
  let players := t.getPlayers.filter (fun p => !p.hasFolded)
  let communityCards := t.getCommunityCards
  match players with
  | [] => .ok []
  | [winner] =>
    let allCards := winner.getHoleCards ++ communityCards
    if 5 ≤ allCards.length then
      match HandEvaluator.evaluateHand (allCards.take 5) with
      | .error e => .error e
      | .ok dummyHand => .ok [(winner, dummyHand)]
    else
      .ok [(winner,
        { rank := .highCard, cards := winner.getHoleCards, primaryValue := 0 })]
  | _ => do
    let playerHands ← players.mapM (fun p => do
      let allCards := p.getHoleCards ++ communityCards
      if allCards.length < 5 then
        Except.error ("Player " ++ p.id ++ " has insufficient cards to evaluate")
      else do
        let hand ←
          if allCards.length = 7 then HandEvaluator.evaluateBest7CardHand allCards
          else HandEvaluator.evaluateHand (allCards.take 5)
        pure (p, hand))
    -- JS stable sort with comparator (a, b) => b.hand.compareTo(a.hand)
    let sortedHands := List.insertionSort
      (fun a b => b.2.compareTo a.2 ≤ 0) playerHands
    match sortedHands with
    | [] => .error ("no hands at showdown")
    | best :: _ =>
      .ok (sortedHands.filter (fun ph => ph.2.compareTo best.2 = 0))

/-- The award loop of `distributePots`: pay each winner their winnings
(skipping zero amounts) and record the results. -/
def awardWinners (winnings : List (PlayerId × Nat)) :
    List (Player × HandRanking) → Table →
    Except String (Table × List (PlayerId × HandRanking × Nat))
  | [], t => .ok (t, [])
  | (p, hand) :: rest, t => do
    let amount := mapGetD winnings p.id
    if 0 < amount then
      match t.getPlayer p.id with
      | none => awardWinners winnings rest t
      | some q =>
        match q.addChips amount with
        | .error e => .error e
        | .ok q' => do
          let (t', results) ← awardWinners winnings rest (t.setPlayerById p.id q')
          pure (t', (p.id, hand, amount) :: results)
    else awardWinners winnings rest t

/-- `distributePots(potManager)`: determine the winners, let the pot
manager split the pots among them, then credit the chips. -/
def distributePots (t : Table) (pm : PotManager) :
    Except String (Table × List (PlayerId × HandRanking × Nat)) := do
  let winners ← determineWinners t
  if winners.isEmpty then pure (t, [])
  else
    let winnersForPot := winners.map (fun w => w.1.id)
    let winnings := pm.distributePots winnersForPot
    awardWinners winnings winners t

end Dealer

/-!
## HandManager (src/engine/HandManager.ts)
-/

/-- `class HandManager`: the hand lifecycle state.  The dealer's deck is
stored alongside the table. -/
structure HandManager where
  table : Table
  deck : Deck
  potManager : PotManager
  currentState : GameState
  handNumber : Nat
  bettingTracker : Option BettingRoundTracker
  deriving DecidableEq, Repr

namespace HandManager

/-- `new HandManager(table)`. -/
def new (t : Table) : HandManager :=
  { table := t, deck := Deck.reset, potManager := PotManager.new,
    currentState := .waitingForPlayers, handNumber := 0, bettingTracker := none }

/-- `setState(newState)`: validated against the transition graph; an
invalid transition throws and the current state is kept (the returned
state is only produced on success). -/
def setState (currentState newState : GameState) : Except String GameState :=
  if isValidTransition currentState newState then .ok newState
  else
    .error ("Invalid state transition: " ++ currentState.toStr ++ " -> "
      ++ newState.toStr)

/-- `postBlinds()`: the small and big blind each post
`min(chips, blind)`; posting is performed through the seats so that the
aliasing of the two captured player references is preserved.  A throw
after the small blind has posted keeps that mutation. -/
def postBlinds (t : Table) : Table × Option String :=
  match t.getSmallBlindPlayer, t.getBigBlindPlayer with
  | some _, some _ =>
    let sbPos := t.getSmallBlindPosition.getD 0
    let bbPos := t.getBigBlindPosition.getD 0
    (match t.getPlayerAtSeat sbPos with
     | none => (t, some ("Cannot determine blind players"))
     | some sbPlayer =>
       let sbAmount := min sbPlayer.chips t.config.smallBlind
       match sbPlayer.bet sbAmount with
       | .error e => (t, some e)
       | .ok (sbPlayer', _) =>
         let t1 := t.setPlayerAtSeat sbPos sbPlayer'
         match t1.getPlayerAtSeat bbPos with
         | none => (t1, some ("Cannot determine blind players"))
         | some bbPlayer =>
           let bbAmount := min bbPlayer.chips t.config.bigBlind
           match bbPlayer.bet bbAmount with
           | .error e => (t1, some e)
           | .ok (bbPlayer', _) => (t1.setPlayerAtSeat bbPos bbPlayer', none))
  | _, _ => (t, some ("Cannot determine blind players"))

/-- `startHand()`: guard the state, bump the hand counter, reset deck
and table, re-check the active player count, post blinds, deal hole
cards and open the preflop tracker.  Each step that throws leaves every
mutation already performed in place, exactly as TypeScript exceptions
do. -/
def startHand (shuffle : List Card → List Card) (hm : HandManager) :
    HandManager × Option String :=
  if hm.currentState ≠ .readyToStart then
    (hm, some ("Cannot start hand from state: " ++ hm.currentState.toStr))
  else
    let hm := { hm with handNumber := hm.handNumber + 1 }
    let (table, deck) := Dealer.prepareNewHand shuffle hm.table
    let hm := { hm with table := table, deck := deck }
    let playerCount := hm.table.getActivePlayers.length
    if playerCount < 2 then
      (hm, some ("Need at least 2 players to start hand"))
    else
      match setState hm.currentState .postingBlinds with
      | .error e => (hm, some e)
      | .ok s =>
        let hm := { hm with currentState := s }
        match postBlinds hm.table with
        | (t, some e) => ({ hm with table := t }, some e)
        | (t, none) =>
          let hm := { hm with table := t }
          match setState hm.currentState .dealingHoleCards with
          | .error e => (hm, some e)
          | .ok s =>
            let hm := { hm with currentState := s }
            match Dealer.dealHoleCards hm.table hm.deck with
            | ((t, d), some e) => ({ hm with table := t, deck := d }, some e)
            | ((t, d), none) =>
              let hm := { hm with table := t, deck := d }
              match setState hm.currentState .preflopBetting with
              | .error e => (hm, some e)
              | .ok s =>
                let tracker := BettingRoundTracker.new hm.table .preflop
                ({ hm with currentState := s, bettingTracker := some tracker }, none)

end HandManager

/-!
## Spec-side definitions used for refinement comparisons
-/

/-- The linear state path of the spec (section 4.5), written from the
spec text. -/
def specLinearPath : List GameState :=
  [.waitingForPlayers, .readyToStart, .postingBlinds, .dealingHoleCards,
   .preflopBetting, .dealingFlop, .flopBetting, .dealingTurn, .turnBetting,
   .dealingRiver, .riverBetting, .showdown, .handComplete]

/-- The transition graph described by the spec: the linear path, each
betting state additionally to `Showdown` and to `HandComplete`, and
`HandComplete` to `ReadyToStart` or `GameOver`; nothing leaves
`GameOver`.  Written from the spec text, to be compared against
`isValidTransition`. -/
def specTransitions : List (GameState × GameState) :=
  (specLinearPath.zip (specLinearPath.drop 1)) ++
  ([GameState.preflopBetting, .flopBetting, .turnBetting, .riverBetting].flatMap
    (fun b => [(b, GameState.showdown), (b, GameState.handComplete)])) ++
  [(.handComplete, .readyToStart), (.handComplete, .gameOver)]

instance {ε α : Type _} [DecidableEq ε] [DecidableEq α] :
    DecidableEq (Except ε α) := fun a b =>
  match a, b with
  | .error x, .error y =>
    if h : x = y then .isTrue (congrArg Except.error h)
    else .isFalse (fun hc => h (by cases hc; rfl))
  | .error _, .ok _ => .isFalse (fun hc => Except.noConfusion hc)
  | .ok _, .error _ => .isFalse (fun hc => Except.noConfusion hc)
  | .ok x, .ok y =>
    if h : x = y then .isTrue (congrArg Except.ok h)
    else .isFalse (fun hc => h (by cases hc; rfl))

/-- Right-pad an integer list with zeros to length `n` (the implicit
zero-extension performed by the `?? 0` reads of the kicker loop). -/
def padTo (n : Nat) (l : List Int) : List Int :=
  l ++ List.replicate (n - l.length) 0

/-- First-difference comparison of two equal-length integer lists. -/
def listCmp : List Int → List Int → Int
  | a :: as, b :: bs => if a ≠ b then a - b else listCmp as bs
  | _, _ => 0

/-!
## Concrete scenarios used by the claims
-/

/-- A seat holding an optional player. -/
def seatWith (i : Nat) (p : Option Player) : Seat :=
  { position := i, player := p, isEmpty := p.isNone }

/-- The per-player street contributions of the side-pot scenario:
p1 all-in for 50, p2 and p3 at 200. -/
def sidePotBets : List (PlayerId × Nat) := [("p1", 50), ("p2", 200), ("p3", 200)]

/-- The all-in player of the side-pot scenario, holding a pair of aces
(the strictly best hand at showdown). -/
def sidePotP1 : Player :=
  { id := "p1", name := "P1",
    holeCards := [{ rank := .ace, suit := .spades },
                  { rank := .ace, suit := .diamonds }],
    chipCount := 0, currentBet := 0, status := .allIn,
    lastAction := some .allIn }

/-- The first full-stack caller of the side-pot scenario. -/
def sidePotP2 : Player :=
  { id := "p2", name := "P2",
    holeCards := [{ rank := .queen, suit := .diamonds },
                  { rank := .three, suit := .clubs }],
    chipCount := 800, currentBet := 0, status := .active,
    lastAction := none }

/-- The second full-stack caller of the side-pot scenario. -/
def sidePotP3 : Player :=
  { id := "p3", name := "P3",
    holeCards := [{ rank := .ten, suit := .diamonds },
                  { rank := .four, suit := .clubs }],
    chipCount := 800, currentBet := 0, status := .active,
    lastAction := none }

/-- The showdown table of the side-pot scenario: p1 is all-in with the
strictly best hand, p2 and p3 are active, and all five community cards
are out. -/
def sidePotShowdownTable : Table :=
  { seats := [seatWith 0 (some sidePotP1), seatWith 1 none,
              seatWith 2 (some sidePotP2), seatWith 3 none,
              seatWith 4 (some sidePotP3), seatWith 5 none],
    buttonPosition := 0,
    communityCards :=
      [{ rank := .two, suit := .clubs }, { rank := .five, suit := .diamonds },
       { rank := .nine, suit := .spades }, { rank := .jack, suit := .hearts },
       { rank := .king, suit := .spades }],
    config := { maxSeats := 6, smallBlind := 5, bigBlind := 10 } }

/-- A 6-seat, 5/10 table with players in seats 0, 2 and 4 and the button
at 0 (so the small blind sits at 2 and the big blind at 4); the big
blind player's stack is a parameter. -/
def threeHandedTable (bbChips : Nat) : Table :=
  { seats :=
      [seatWith 0 (some (Player.new "p1" "P1" 1000)),
       seatWith 1 none,
       seatWith 2 (some (Player.new "p2" "P2" 1000)),
       seatWith 3 none,
       seatWith 4 (some (Player.new "p3" "P3" bbChips)),
       seatWith 5 none],
    buttonPosition := 0, communityCards := [],
    config := { maxSeats := 6, smallBlind := 5, bigBlind := 10 } }

/-- A table with one active player and one sitting-out player: after the
hand reset the active-player count stays below 2, so `startHand` must
throw. -/
def shortHandedTable : Table :=
  { seats :=
      [seatWith 0 (some (Player.new "p1" "P1" 1000)),
       seatWith 1 (some { Player.new "p9" "P9" 500 with status := .sittingOut }),
       seatWith 2 none, seatWith 3 none, seatWith 4 none, seatWith 5 none],
    buttonPosition := 0, communityCards := [],
    config := { maxSeats := 6, smallBlind := 5, bigBlind := 10 } }

end Poker

/-!
## Claims
-/

namespace Poker

/-- C3: the hand lifecycle state machine permits exactly the transitions
of the spec's graph, and `setState` succeeds exactly on those pairs
while any other ordered pair of states produces the
invalid-state-transition error (so the current state is only replaced on
success). -/
theorem stateMachine_transitions_exact :
    ∀ a b : GameState,
      (isValidTransition a b = true ↔ (a, b) ∈ specTransitions) ∧
      (HandManager.setState a b =
        if (a, b) ∈ specTransitions then Except.ok b
        else Except.error ("Invalid state transition: " ++ a.toStr ++ " -> "
          ++ b.toStr)) := by
  decide

/-- C6: the five-card evaluator scores a suited A-5-4-3-2 as a straight
flush with primary value 5 (the wheel), and Q-K-A-2-3 is never a
straight nor a straight flush, for every assignment of suits (no
wrap-around past the ace). -/
theorem wheel_and_no_wraparound :
    (∀ s : Suit,
      (HandEvaluator.evaluateHand
        [{ rank := .ace, suit := s }, { rank := .five, suit := s },
         { rank := .four, suit := s }, { rank := .three, suit := s },
         { rank := .two, suit := s }]).map
        (fun h => (h.rank, h.primaryValue)) = .ok (.straightFlush, 5)) ∧
    (∀ s1 s2 s3 s4 s5 : Suit,
      (HandEvaluator.evaluateHand
        [{ rank := .queen, suit := s1 }, { rank := .king, suit := s2 },
         { rank := .ace, suit := s3 }, { rank := .two, suit := s4 },
         { rank := .three, suit := s5 }]).map
        (fun h => decide (h.rank = .straight ∨ h.rank = .straightFlush))
        = .ok false) := by
  decide

/-- C9: `collectBets` with a contribution map holding no positive amount
(in particular an empty map) returns without an error and leaves the
main pot and every side pot untouched. -/
theorem collectBets_no_positive_noop :
    ∀ (pm : PotManager) (bets : List (PlayerId × Nat))
      (allInPlayers foldedPlayers : List PlayerId),
      (∀ e ∈ bets, e.2 = 0) →
      PotManager.collectBets pm bets allInPlayers foldedPlayers = .ok pm := by
  intro pm bets allInPlayers foldedPlayers hz
  unfold PotManager.collectBets
  by_cases hb : bets.isEmpty
  · simp [hb]
  · have hfilter :
        ((bets.map (fun e => e.2)).filter (fun amt => 0 < amt)) = [] := by
      rw [List.filter_eq_nil_iff]
      intro a ha
      rcases List.mem_map.mp ha with ⟨e, he, rfl⟩
      simp [hz e he]
    simp [hb, hfilter]

/-- Witness for C9 at a concrete non-empty pot manager and an all-zero
contribution map. -/
theorem collectBets_no_positive_noop_witness :
    PotManager.collectBets
      { mainPot := { contributions := [("p1", 30)], eligiblePlayerIds := ["p1"] },
        sidePots := [] }
      [("p1", 0), ("p2", 0)] [] ["p2"]
      = .ok { mainPot := { contributions := [("p1", 30)],
                           eligiblePlayerIds := ["p1"] },
              sidePots := [] } := by
  exact collectBets_no_positive_noop _ _ _ _ (by decide)

/-- C10: eligibility removal is not permanent: a positive contribution
after `removePlayerEligibility` makes the player eligible again. -/
theorem eligibility_readded_on_contribution :
    ∀ (pot : Pot) (p : PlayerId) (a : Nat), a ≠ 0 →
      ((pot.removePlayerEligibility p).addContribution p a).map
        (fun pot' => pot'.isPlayerEligible p) = .ok true := by
  intro pot p a ha
  have hnot : p ∉ (pot.removePlayerEligibility p).eligiblePlayerIds := by
    simp [Pot.removePlayerEligibility]
  simp [Pot.addContribution, ha, Pot.isPlayerEligible, hnot, Except.map]

/-- Witness for C10 at a concrete pot. -/
theorem eligibility_readded_on_contribution_witness :
    ((Pot.removePlayerEligibility
        { contributions := [("p1", 40)], eligiblePlayerIds := ["p1", "p2"] }
        "p1").addContribution "p1" 25).map
      (fun pot' => pot'.isPlayerEligible "p1") = .ok true :=
  eligibility_readded_on_contribution _ "p1" 25 (by decide)

/-!
### Association-list lemmas
-/

theorem mapGet_mapSet_self (m : List (PlayerId × Nat)) (k : PlayerId) (v : Nat) :
    mapGet (mapSet m k v) k = some v := by
  induction m with
  | nil => simp [mapSet, mapGet]
  | cons e t ih =>
    by_cases h : e.1 = k
    · simp [mapSet, mapGet, h]
    · simpa [mapSet, mapGet, h] using ih

theorem mapGet_mapSet_ne (m : List (PlayerId × Nat)) (k k' : PlayerId) (v : Nat)
    (h : k' ≠ k) : mapGet (mapSet m k v) k' = mapGet m k' := by
  induction m with
  | nil => simp [mapSet, mapGet, h, Ne.symm h]
  | cons e t ih =>
    by_cases he : e.1 = k
    · subst he
      simp [mapSet, mapGet, h, Ne.symm h]
    · by_cases he' : e.1 = k'
      · simp [mapSet, mapGet, he, he', h]
      · simpa [mapSet, mapGet, he, he', h] using ih

theorem mapGetD_mapSet (m : List (PlayerId × Nat)) (k k' : PlayerId) (v : Nat) :
    mapGetD (mapSet m k v) k' = if k' = k then v else mapGetD m k' := by
  by_cases h : k' = k
  · subst h; simp [mapGetD, mapGet_mapSet_self]
  · simp [mapGetD, mapGet_mapSet_ne m k k' v h, h]

/-!
### C5: pot distribution
-/

theorem creditWinners_getD (ws : List PlayerId) (winnings : List (PlayerId × Nat))
    (per rem : Nat) (first : Bool) (hnd : ws.Nodup) (p : PlayerId) :
    mapGetD (PotManager.creditWinners winnings per rem ws first) p =
      mapGetD winnings p +
        (if p ∈ ws then
          (if first ∧ ws.head? = some p then per + rem else per)
         else 0) := by
  induction ws generalizing winnings first with
  | nil => simp [PotManager.creditWinners]
  | cons w rest ih =>
    have hw : w ∉ rest := (List.nodup_cons.mp hnd).1
    have hnd' : rest.Nodup := (List.nodup_cons.mp hnd).2
    rw [PotManager.creditWinners]
    rw [ih _ false hnd']
    rw [mapGetD_mapSet]
    by_cases hp : p = w
    · subst hp
      cases first <;> simp [hw]
    · by_cases hmem : p ∈ rest
      · simp [hp, hmem, Ne.symm hp]
      · simp [hp, hmem, Ne.symm hp]

/-- C5: for a pot whose restriction of the supplied (duplicate-free)
winner list to its eligible players is non-empty, `distributeSinglePot`
(the per-pot crediting step of `distributePots`) credits the first
eligible winner `⌊T / n⌋ + (T mod n)` chips, every other eligible winner
`⌊T / n⌋` chips, leaves everyone else untouched, and the credited
amounts sum to exactly the pot total `T`. -/
theorem distributeSinglePot_split (pot : Pot) (winners : List PlayerId)
    (winnings : List (PlayerId × Nat))
    (hne : (winners.filter (fun w => pot.isPlayerEligible w)) ≠ [])
    (hnd : (winners.filter (fun w => pot.isPlayerEligible w)).Nodup) :
    (∀ p, mapGetD (PotManager.distributeSinglePot pot winners winnings) p =
      mapGetD winnings p +
        (if p ∈ winners.filter (fun w => pot.isPlayerEligible w) then
          (if (winners.filter (fun w => pot.isPlayerEligible w)).head? = some p then
            pot.total / (winners.filter (fun w => pot.isPlayerEligible w)).length
              + pot.total % (winners.filter (fun w => pot.isPlayerEligible w)).length
          else
            pot.total / (winners.filter (fun w => pot.isPlayerEligible w)).length)
         else 0)) ∧
    (pot.total / (winners.filter (fun w => pot.isPlayerEligible w)).length
        + pot.total % (winners.filter (fun w => pot.isPlayerEligible w)).length)
      + ((winners.filter (fun w => pot.isPlayerEligible w)).length - 1)
        * (pot.total / (winners.filter (fun w => pot.isPlayerEligible w)).length)
      = pot.total := by
  set elig := winners.filter (fun w => pot.isPlayerEligible w) with helig
  have hlen : 1 ≤ elig.length := by
    cases h : elig with
    | nil => exact absurd h hne
    | cons a t => simp [h]
  constructor
  · intro p
    unfold PotManager.distributeSinglePot
    by_cases hz : pot.total = 0
    · simp [hz]
    · rw [if_neg hz]
      have hie : elig.isEmpty = false := by
        cases h : elig with
        | nil => exact absurd h hne
        | cons a t => simp [h]
      simp only [← helig, hie, Bool.false_eq_true, if_false]
      rw [creditWinners_getD elig winnings _ _ true hnd p]
      simp
  · have hdm := Nat.div_add_mod pot.total elig.length
    have h2 : elig.length - 1 + 1 = elig.length := by omega
    have h3 : (elig.length - 1) * (pot.total / elig.length)
        + (pot.total / elig.length)
        = elig.length * (pot.total / elig.length) := by
      calc (elig.length - 1) * (pot.total / elig.length)
            + (pot.total / elig.length)
          = ((elig.length - 1) + 1) * (pot.total / elig.length) := by
            rw [Nat.succ_mul]
        _ = elig.length * (pot.total / elig.length) := by rw [h2]
    omega

/-- Witness for C5: a 7-chip pot split between two eligible winners of
three supplied winners; the first gets 4, the second 3, the ineligible
winner nothing, and 4 + 3 is the pot total. -/
theorem distributeSinglePot_split_witness :
    mapGetD (PotManager.distributeSinglePot
      { contributions := [("a", 3), ("b", 4)], eligiblePlayerIds := ["p", "q"] }
      ["x", "p", "q"] []) "p" = 4 ∧
    mapGetD (PotManager.distributeSinglePot
      { contributions := [("a", 3), ("b", 4)], eligiblePlayerIds := ["p", "q"] }
      ["x", "p", "q"] []) "q" = 3 ∧
    mapGetD (PotManager.distributeSinglePot
      { contributions := [("a", 3), ("b", 4)], eligiblePlayerIds := ["p", "q"] }
      ["x", "p", "q"] []) "x" = 0 := by
  have h := distributeSinglePot_split
    { contributions := [("a", 3), ("b", 4)], eligiblePlayerIds := ["p", "q"] }
    ["x", "p", "q"] [] (by decide) (by decide)
  refine ⟨(h.1 "p").trans (by decide), (h.1 "q").trans (by decide),
    (h.1 "x").trans (by decide)⟩

/-!
### C7: the comparison order on hand rankings
-/

theorem listCmp_refl : ∀ xs : List Int, listCmp xs xs = 0 := by
  intro xs
  induction xs with
  | nil => simp [listCmp]
  | cons x t ih => simp [listCmp, ih]

theorem kickersCmp_nil_left (bs : List Int) :
    HandRanking.kickersCmp [] bs = HandRanking.zerosCmp bs := rfl

theorem kickersCmp_neg (as bs : List Int) :
    HandRanking.kickersCmp as bs = -(HandRanking.kickersCmp bs as) := by
  induction as generalizing bs with
  | nil =>
    induction bs with
    | nil => simp [HandRanking.kickersCmp, HandRanking.zerosCmp]
    | cons b u ihb =>
      by_cases hb : b = 0
      · simpa [HandRanking.kickersCmp, HandRanking.zerosCmp, hb]
          using ihb
      · simp [HandRanking.kickersCmp, HandRanking.zerosCmp, hb, Ne.symm hb]
  | cons a t ih =>
    cases bs with
    | nil =>
      by_cases ha : a = 0
      · simpa [HandRanking.kickersCmp, HandRanking.zerosCmp, ha]
          using ih []
      · simp [HandRanking.kickersCmp, HandRanking.zerosCmp, ha, Ne.symm ha]
    | cons b u =>
      by_cases hab : a = b
      · simpa [HandRanking.kickersCmp, hab] using ih u
      · simp [HandRanking.kickersCmp, hab, Ne.symm hab]

theorem kickersCmp_eq_listCmp (n : Nat) :
    ∀ (as bs : List Int), as.length ≤ n → bs.length ≤ n →
      HandRanking.kickersCmp as bs = listCmp (padTo n as) (padTo n bs) := by
  induction n with
  | zero =>
    intro as bs ha hb
    rw [List.length_eq_zero.mp (Nat.le_zero.mp ha),
      List.length_eq_zero.mp (Nat.le_zero.mp hb)]
    simp [HandRanking.kickersCmp, HandRanking.zerosCmp, padTo, listCmp]
  | succ n ih =>
    intro as bs ha hb
    cases as with
    | nil =>
      cases bs with
      | nil =>
        simp [HandRanking.kickersCmp, HandRanking.zerosCmp, listCmp_refl]
      | cons b u =>
        have h0 : padTo (n + 1) ([] : List Int) = 0 :: padTo n [] := by
          simp [padTo, List.replicate_succ]
        have h1 : padTo (n + 1) (b :: u) = b :: padTo n u := by
          simp [padTo, List.replicate]
        rw [h0, h1]
        simp only [listCmp, HandRanking.kickersCmp, HandRanking.zerosCmp]
        by_cases hb0 : (0 : Int) = b
        · rw [if_neg (by simpa using hb0), if_neg (by simpa using hb0)]
          exact ih [] u (by simp) (by simpa using Nat.succ_le_succ_iff.mp hb)
        · rw [if_pos hb0, if_pos hb0]
    | cons a t =>
      have h1 : padTo (n + 1) (a :: t) = a :: padTo n t := by
        simp [padTo, List.replicate]
      cases bs with
      | nil =>
        have h0 : padTo (n + 1) ([] : List Int) = 0 :: padTo n [] := by
          simp [padTo, List.replicate_succ]
        rw [h0, h1]
        simp only [listCmp, HandRanking.kickersCmp]
        by_cases ha0 : a = 0
        · rw [if_neg (by simpa using ha0), if_neg (by simpa using ha0)]
          exact ih t [] (by simpa using Nat.succ_le_succ_iff.mp ha) (by simp)
        · rw [if_pos ha0, if_pos ha0]
      | cons b u =>
        have h2 : padTo (n + 1) (b :: u) = b :: padTo n u := by
          simp [padTo, List.replicate]
        rw [h1, h2]
        simp only [listCmp, HandRanking.kickersCmp]
        by_cases hab : a = b
        · rw [if_neg (by simpa using hab), if_neg (by simpa using hab)]
          exact ih t u (by simpa using Nat.succ_le_succ_iff.mp ha)
            (by simpa using Nat.succ_le_succ_iff.mp hb)
        · rw [if_pos hab, if_pos hab]

theorem listCmp_trans :
    ∀ (xs ys zs : List Int), xs.length = ys.length → ys.length = zs.length →
      listCmp xs ys ≤ 0 → listCmp ys zs ≤ 0 → listCmp xs zs ≤ 0 := by
  intro xs
  induction xs with
  | nil =>
    intro ys zs hxy hyz _ _
    have hys : ys = [] := List.length_eq_zero.mp (by simpa using hxy.symm)
    subst hys
    have hzs : zs = [] := List.length_eq_zero.mp (by simpa using hyz.symm)
    subst hzs
    simp [listCmp]
  | cons x xt ih =>
    intro ys zs hxy hyz h1 h2
    cases ys with
    | nil => simp at hxy
    | cons y yt =>
      cases zs with
      | nil => simp at hyz
      | cons z zt =>
        simp only [listCmp, ne_eq, ite_not] at h1 h2 ⊢
        by_cases hxy' : x = y <;> by_cases hyz' : y = z
        · subst hxy'
          subst hyz'
          rw [if_pos rfl] at h1 h2 ⊢
          exact ih yt zt (by simpa using hxy) (by simpa using hyz) h1 h2
        · subst hxy'
          rw [if_neg hyz'] at h2
          rw [if_neg hyz']
          exact h2
        · subst hyz'
          rw [if_neg hxy'] at h1
          rw [if_neg hxy']
          exact h1
        · rw [if_neg hxy'] at h1
          rw [if_neg hyz'] at h2
          by_cases hxz : x = z
          · exact absurd hxz (by omega)
          · rw [if_neg hxz]
            omega

theorem listCmp_zero_iff :
    ∀ (xs ys : List Int), xs.length = ys.length →
      (listCmp xs ys = 0 ↔ xs = ys) := by
  intro xs
  induction xs with
  | nil =>
    intro ys h
    have hys : ys = [] := List.length_eq_zero.mp (by simpa using h.symm)
    subst hys
    simp [listCmp]
  | cons x xt ih =>
    intro ys h
    cases ys with
    | nil => simp at h
    | cons y yt =>
      simp only [listCmp, ne_eq, ite_not]
      by_cases hxy : x = y
      · subst hxy
        rw [if_pos rfl, ih yt (by simpa using h)]
        simp
      · rw [if_neg hxy]
        constructor
        · intro hc
          exact absurd (by omega : x = y) hxy
        · intro hc
          cases hc
          exact absurd rfl hxy

theorem kickersCmp_trans (as bs cs : List Int)
    (h1 : HandRanking.kickersCmp as bs ≤ 0)
    (h2 : HandRanking.kickersCmp bs cs ≤ 0) :
    HandRanking.kickersCmp as cs ≤ 0 := by
  set n := max as.length (max bs.length cs.length) with hn
  have hla : as.length ≤ n := le_max_left _ _
  have hlb : bs.length ≤ n := le_trans (le_max_left _ _) (le_max_right _ _)
  have hlc : cs.length ≤ n := le_trans (le_max_right _ _) (le_max_right _ _)
  have hpl : ∀ l : List Int, l.length ≤ n → (padTo n l).length = n := by
    intro l hl
    simp [padTo]
    omega
  rw [kickersCmp_eq_listCmp n as bs hla hlb] at h1
  rw [kickersCmp_eq_listCmp n bs cs hlb hlc] at h2
  rw [kickersCmp_eq_listCmp n as cs hla hlc]
  exact listCmp_trans _ _ _ ((hpl as hla).trans (hpl bs hlb).symm)
    ((hpl bs hlb).trans (hpl cs hlc).symm) h1 h2

theorem kickersCmp_zero_iff (as bs : List Int) :
    HandRanking.kickersCmp as bs = 0 ↔
      padTo (max as.length bs.length) as = padTo (max as.length bs.length) bs := by
  set n := max as.length bs.length with hn
  have hla : as.length ≤ n := le_max_left _ _
  have hlb : bs.length ≤ n := le_max_right _ _
  have hpl : ∀ l : List Int, l.length ≤ n → (padTo n l).length = n := by
    intro l hl
    simp [padTo]
    omega
  rw [kickersCmp_eq_listCmp n as bs hla hlb]
  exact listCmp_zero_iff _ _ ((hpl as hla).trans (hpl bs hlb).symm)

theorem handRankValue_injective :
    ∀ r s : HandRank, r.value = s.value → r = s := by decide

/-- `compareTo` is the zero-padded first-difference comparison of the
key sequence rank value, primary value, secondary value, kickers. -/
theorem compareTo_eq_kickersCmp (A B : HandRanking) :
    A.compareTo B = HandRanking.kickersCmp
      (A.rank.value :: A.primaryValue :: A.secondaryValue :: A.kickers)
      (B.rank.value :: B.primaryValue :: B.secondaryValue :: B.kickers) := by
  by_cases h1 : A.rank = B.rank
  · by_cases h2 : A.primaryValue = B.primaryValue
    · by_cases h3 : A.secondaryValue = B.secondaryValue
      · simp [HandRanking.compareTo, HandRanking.kickersCmp, h1, h2, h3]
      · simp [HandRanking.compareTo, HandRanking.kickersCmp, h1, h2, h3]
    · simp [HandRanking.compareTo, HandRanking.kickersCmp, h1, h2]
  · have hv : A.rank.value ≠ B.rank.value :=
      fun h => h1 (handRankValue_injective _ _ h)
    simp [HandRanking.compareTo, HandRanking.kickersCmp, h1, hv]

/-- C7 counterexample: two hand rankings whose kicker lists differ
(`[5]` versus `[5, 0]`) while every other field agrees, yet `compareTo`
returns 0 — the kicker loop pads the shorter list with zeros, so a
result of 0 does not imply that the kicker lists match exactly. -/
theorem compareTo_zero_counterexample :
    HandRanking.compareTo
        { rank := .highCard, cards := [], primaryValue := 7,
          secondaryValue := 0, kickers := [5] }
        { rank := .highCard, cards := [], primaryValue := 7,
          secondaryValue := 0, kickers := [5, 0] } = 0 ∧
    ([5] : List Int) ≠ [5, 0] := by decide

/-- C7 (amended): `compareTo` is the exact negation of its flipped
application (hence the signs are opposite), the order it induces is
transitive, and it returns 0 exactly when category, primary value and
secondary value agree and the kicker lists agree index by index after
zero-padding to a common length. -/
theorem compareTo_order_amended :
    ∀ A B C : HandRanking,
      (A.compareTo B = -(B.compareTo A) ∧
        (A.compareTo B).sign = -((B.compareTo A).sign)) ∧
      (A.compareTo B ≤ 0 → B.compareTo C ≤ 0 → A.compareTo C ≤ 0) ∧
      (A.compareTo B = 0 ↔
        (A.rank = B.rank ∧ A.primaryValue = B.primaryValue ∧
          A.secondaryValue = B.secondaryValue ∧
          padTo (max A.kickers.length B.kickers.length) A.kickers =
            padTo (max A.kickers.length B.kickers.length) B.kickers)) := by
  intro A B C
  have hneg : A.compareTo B = -(B.compareTo A) := by
    rw [compareTo_eq_kickersCmp, compareTo_eq_kickersCmp, kickersCmp_neg]
  refine ⟨⟨hneg, by rw [hneg, Int.sign_neg]⟩, ?_, ?_⟩
  · intro h1 h2
    rw [compareTo_eq_kickersCmp] at h1 h2 ⊢
    exact kickersCmp_trans _ _ _ h1 h2
  · by_cases h1 : A.rank = B.rank
    · by_cases h2 : A.primaryValue = B.primaryValue
      · by_cases h3 : A.secondaryValue = B.secondaryValue
        · simp only [HandRanking.compareTo, h1, h2, h3, ne_eq,
            not_true_eq_false, if_false, ite_self]
          rw [kickersCmp_zero_iff]
          simp [h1, h2, h3]
        · simp only [HandRanking.compareTo, h1, h2, ne_eq,
            not_true_eq_false, if_false]
          rw [if_pos (by simpa using h3)]
          constructor
          · intro hc
            exact absurd (by omega : A.secondaryValue = B.secondaryValue) h3
          · intro hc
            exact absurd hc.2.2.1 h3
      · simp only [HandRanking.compareTo, h1, ne_eq, not_true_eq_false,
          if_false]
        rw [if_pos (by simpa using h2)]
        constructor
        · intro hc
          exact absurd (by omega : A.primaryValue = B.primaryValue) h2
        · intro hc
          exact absurd hc.2.1 h2
    · simp only [HandRanking.compareTo]
      rw [if_pos (by simpa using h1)]
      constructor
      · intro hc
        exact absurd (handRankValue_injective A.rank B.rank (by omega)) h1
      · intro hc
        exact absurd hc.1 h1

/-- Witness for C7 (amended): the transitivity component applied at
three concrete hand rankings, discharging both order hypotheses. -/
theorem compareTo_order_amended_witness :
    HandRanking.compareTo
        { rank := .pair, cards := [], primaryValue := 4,
          secondaryValue := 0, kickers := [9] }
        { rank := .flush, cards := [], primaryValue := 11,
          secondaryValue := 0, kickers := [9, 6, 3, 2] } ≤ 0 :=
  (compareTo_order_amended
      { rank := .pair, cards := [], primaryValue := 4,
        secondaryValue := 0, kickers := [9] }
      { rank := .pair, cards := [], primaryValue := 8,
        secondaryValue := 0, kickers := [3] }
      { rank := .flush, cards := [], primaryValue := 11,
        secondaryValue := 0, kickers := [9, 6, 3, 2] }).2.1
    (by decide) (by decide)

/-- C1 (code evaluated at the failing input): `collectBets` on the
contribution map p1:50 (all-in), p2:200, p3:200 builds the main pot of
150 with all three players eligible and one side pot of 300 with only
p2 and p3 eligible — exactly as the claim states — but at showdown the
dealer passes only the overall best hand (p1) to `distributePots`, so
p1 wins exactly 150 while the 300 side pot has no eligible winner among
the supplied list and is paid to nobody: p2 and p3 receive 0, refuting
the claim that the side pot is still paid out among them. -/
theorem sidePotScenario_payout :
    ∃ pm, PotManager.collectBets PotManager.new sidePotBets ["p1"] [] = .ok pm ∧
      pm.mainPot.total = 150 ∧
      pm.mainPot.isPlayerEligible "p1" = true ∧
      pm.mainPot.isPlayerEligible "p2" = true ∧
      pm.mainPot.isPlayerEligible "p3" = true ∧
      pm.sidePots.map Pot.total = [300] ∧
      pm.sidePots.map (fun sp => (sp.isPlayerEligible "p1",
        sp.isPlayerEligible "p2", sp.isPlayerEligible "p3"))
        = [(false, true, true)] ∧
      (Dealer.determineWinners sidePotShowdownTable).map
        (fun ws => ws.map (fun w => w.1.id)) = .ok ["p1"] ∧
      PotManager.distributePots pm ["p1"] = [("p1", 150)] ∧
      mapGetD (PotManager.distributePots pm ["p1"]) "p2" = 0 ∧
      mapGetD (PotManager.distributePots pm ["p1"]) "p3" = 0 ∧
      (Dealer.distributePots sidePotShowdownTable pm).map
        (fun r => r.2.map (fun x => (x.1, x.2.2))) = .ok [("p1", 150)] := by
  refine ⟨{ mainPot := { contributions := [("p1", 50), ("p2", 50), ("p3", 50)],
                         eligiblePlayerIds := ["p1", "p2", "p3"] },
            sidePots := [{ contributions := [("p2", 150), ("p3", 150)],
                           eligiblePlayerIds := ["p2", "p3"] }] },
    by rfl, by decide, by decide, by decide, by decide, by decide, by decide,
    ?_, by decide, by decide, by decide, ?_⟩ <;> rfl

/-- C4 counterexample: on the three-handed 5/10 table whose big blind
player holds only 3 chips, posting the blinds succeeds (the short stack
posts an all-in partial blind of 3), yet `getActionOrder` for Preflop
reports a starting bet of 3, not the configured big blind of 10. -/
theorem preflop_startingBet_counterexample :
    (HandManager.postBlinds (threeHandedTable 3)).2 = none ∧
    ((HandManager.postBlinds (threeHandedTable 3)).1.getBigBlindPlayer).map
      (fun p => (p.currentBetAmount, p.isAllIn)) = some (3, true) ∧
    (ActionOrderRules.getActionOrder
      (HandManager.postBlinds (threeHandedTable 3)).1 .preflop).startingBet = 3 ∧
    (threeHandedTable 3).config.bigBlind = 10 := by
  decide

/-- C4 (amended): for every table with at least one active player and a
big blind player, the preflop starting bet reported by `getActionOrder`
equals that player's current bet amount — which is the configured big
blind whenever the big blind player posted the full blind, as on the
fully stacked three-handed table, but the posted partial amount when
the big blind is short-stacked. -/
theorem preflop_startingBet_amended :
    (∀ (t : Table) (p : Player), t.getActivePlayers ≠ [] →
      t.getBigBlindPlayer = some p →
      (ActionOrderRules.getActionOrder t .preflop).startingBet
        = p.currentBetAmount) ∧
    ((HandManager.postBlinds (threeHandedTable 1000)).2 = none ∧
      (ActionOrderRules.getActionOrder
        (HandManager.postBlinds (threeHandedTable 1000)).1 .preflop).startingBet
        = (threeHandedTable 1000).config.bigBlind) := by
  constructor
  · intro t p hne hbb
    have hie : t.getActivePlayers.isEmpty = false := by
      cases h : t.getActivePlayers with
      | nil => exact absurd h hne
      | cons a u => simp [h]
    simp only [ActionOrderRules.getActionOrder, hie, Bool.false_eq_true,
      if_false, reduceIte]
    simp only [ActionOrderRules.getPreflopOrder, hbb]
    simp
  · exact ⟨by decide, by decide⟩

/-- Witness for C4 (amended): the general component applied to the
fully stacked three-handed table after the blinds are posted. -/
theorem preflop_startingBet_amended_witness :
    (ActionOrderRules.getActionOrder
      (HandManager.postBlinds (threeHandedTable 1000)).1 .preflop).startingBet
      = 10 :=
  (preflop_startingBet_amended.1
    (HandManager.postBlinds (threeHandedTable 1000)).1
    { Player.new "p3" "P3" 990 with currentBet := 10, lastAction := some .bet }
    (by decide) (by decide)).trans (by decide)

/-- C8: `startHand` is not atomic on failure.  Called in state
`ReadyToStart`, when the active-player count found after the deck and
table reset is below 2 it reports the insufficient-players error, but by
then the hand number is already incremented and the deck and every
player are already reset for a new hand; only `currentState` (and the
untouched pot manager and tracker) remain as before. -/
theorem startHand_not_atomic :
    ∀ (hm : HandManager) (shuffle : List Card → List Card),
      hm.currentState = .readyToStart →
      (hm.table.resetForNewHand.getActivePlayers).length < 2 →
      HandManager.startHand shuffle hm =
        ({ hm with handNumber := hm.handNumber + 1,
                   table := hm.table.resetForNewHand,
                   deck := { cards := shuffle standardCards, dealtCards := [] } },
         some ("Need at least 2 players to start hand")) := by
  intro hm shuffle hstate hcount
  unfold HandManager.startHand
  rw [if_neg (by simp [hstate])]
  simp only [Dealer.prepareNewHand]
  rw [if_pos hcount]

/-- Witness for C8: a concrete hand manager over the short-handed table
(one active player, one sitting out), with the identity shuffle. -/
theorem startHand_not_atomic_witness :
    HandManager.startHand id
        { table := shortHandedTable, deck := Deck.reset,
          potManager := PotManager.new, currentState := .readyToStart,
          handNumber := 0, bettingTracker := none } =
      ({ table := shortHandedTable.resetForNewHand,
         deck := { cards := id standardCards, dealtCards := [] },
         potManager := PotManager.new, currentState := .readyToStart,
         handNumber := 1, bettingTracker := none },
       some ("Need at least 2 players to start hand")) :=
  startHand_not_atomic
    { table := shortHandedTable, deck := Deck.reset,
      potManager := PotManager.new, currentState := .readyToStart,
      handNumber := 0, bettingTracker := none }
    id (by decide) (by decide)

/-!
### C2: pot conservation — supporting lemmas
-/

theorem pot_sum_mapSet_add (m : List (PlayerId × Nat)) (k : PlayerId) (a : Nat) :
    ((mapSet m k (mapGetD m k + a)).map (fun e => e.2)).sum
      = (m.map (fun e => e.2)).sum + a := by
  induction m with
  | nil => simp [mapSet, mapGetD, mapGet]
  | cons e t ih =>
    by_cases he : e.1 = k
    · simp [mapSet, mapGetD, mapGet, he]
      omega
    · have hd : mapGetD (e :: t) k = mapGetD t k := by
        simp [mapGetD, mapGet, List.find?, he]
      rw [mapSet]
      rw [if_neg he]
      simp only [List.map_cons, List.sum_cons, hd, ih]
      omega

theorem mapGetD_cons (e : PlayerId × Nat) (t : List (PlayerId × Nat))
    (k : PlayerId) :
    mapGetD (e :: t) k = if e.1 = k then e.2 else mapGetD t k := by
  by_cases h : e.1 = k <;> simp [mapGetD, mapGet, List.find?_cons, h]

theorem addContribution_total (pot : Pot) (p : PlayerId) (amt : Nat)
    (ha : amt ≠ 0) :
    pot.addContribution p amt = .ok (Pot.mk
      (mapSet pot.contributions p (mapGetD pot.contributions p + amt))
      (if p ∈ pot.eligiblePlayerIds then pot.eligiblePlayerIds
        else pot.eligiblePlayerIds ++ [p])) ∧
    (Pot.mk
      (mapSet pot.contributions p (mapGetD pot.contributions p + amt))
      (if p ∈ pot.eligiblePlayerIds then pot.eligiblePlayerIds
        else pot.eligiblePlayerIds ++ [p])).total
      = pot.total + amt := by
  constructor
  · unfold Pot.addContribution
    rw [if_neg ha]
  · exact pot_sum_mapSet_add pot.contributions p amt

theorem entry_eq_of_nodup_keys {bets : List (PlayerId × Nat)}
    (hnd : (bets.map (fun e => e.1)).Nodup) {pb pb' : PlayerId × Nat}
    (h1 : pb ∈ bets) (h2 : pb' ∈ bets) (hk : pb.1 = pb'.1) : pb = pb' := by
  induction bets with
  | nil => simp at h1
  | cons e t ih =>
    simp only [List.map_cons, List.nodup_cons] at hnd
    rcases List.mem_cons.mp h1 with rfl | h1'
    · rcases List.mem_cons.mp h2 with rfl | h2'
      · rfl
      · exfalso
        apply hnd.1
        rw [hk]
        exact List.mem_map_of_mem _ h2'
    · rcases List.mem_cons.mp h2 with rfl | h2'
      · exfalso
        apply hnd.1
        rw [← hk]
        exact List.mem_map_of_mem _ h1'
      · exact ih hnd.2 h1' h2'

theorem mapGetD_mapForm (bets : List (PlayerId × Nat))
    (f : PlayerId × Nat → Nat)
    (hnd : (bets.map (fun e => e.1)).Nodup) (pb0 : PlayerId × Nat)
    (h0 : pb0 ∈ bets) :
    mapGetD (bets.map (fun pb => (pb.1, f pb))) pb0.1 = f pb0 := by
  induction bets with
  | nil => simp at h0
  | cons e t ih =>
    simp only [List.map_cons, List.nodup_cons] at hnd
    rcases List.mem_cons.mp h0 with rfl | h0'
    · rw [List.map_cons, mapGetD_cons]
      simp
    · have hne : e.1 ≠ pb0.1 := by
        intro hc
        apply hnd.1
        rw [hc]
        exact List.mem_map_of_mem _ h0'
      rw [List.map_cons, mapGetD_cons]
      simp only [hne, if_false, reduceIte]
      exact ih hnd.2 h0'

theorem mapSet_mapForm (bets : List (PlayerId × Nat))
    (f : PlayerId × Nat → Nat)
    (hnd : (bets.map (fun e => e.1)).Nodup) (pb0 : PlayerId × Nat)
    (h0 : pb0 ∈ bets) (v : Nat) :
    mapSet (bets.map (fun pb => (pb.1, f pb))) pb0.1 v
      = bets.map (fun pb => (pb.1, if pb.1 = pb0.1 then v else f pb)) := by
  induction bets with
  | nil => simp at h0
  | cons e t ih =>
    simp only [List.map_cons, List.nodup_cons] at hnd
    rcases List.mem_cons.mp h0 with rfl | h0'
    · rw [List.map_cons, mapSet, if_pos rfl, List.map_cons, if_pos rfl]
      congr 1
      refine (List.map_congr_left ?_).symm
      intro pb hpb
      have hne : pb.1 ≠ pb0.1 := by
        intro hc
        apply hnd.1
        rw [← hc]
        exact List.mem_map_of_mem _ hpb
      simp [hne]
    · have hne : e.1 ≠ pb0.1 := by
        intro hc
        apply hnd.1
        rw [hc]
        exact List.mem_map_of_mem _ h0'
      rw [List.map_cons, mapSet, if_neg hne, List.map_cons,
        ih hnd.2 h0']
      simp [hne]

theorem filter_of_mapForm (bets : List (PlayerId × Nat))
    (f : PlayerId × Nat → Nat) (q : Nat → Bool) :
    (bets.map (fun pb => (pb.1, f pb))).filter (fun e => q e.2)
      = (bets.filter (fun pb => q (f pb))).map (fun pb => (pb.1, f pb)) := by
  induction bets with
  | nil => simp
  | cons e t ih =>
    by_cases hq : q (f e)
    · simp [List.filter_cons, hq, ih]
    · simp [List.filter_cons, hq, ih]

theorem total_fold_removeEligibility (fs : List PlayerId) (pot : Pot) :
    (fs.foldl (fun po f => po.removePlayerEligibility f) pot).total
      = pot.total := by
  induction fs generalizing pot with
  | nil => rfl
  | cons f t ih => simpa [Pot.removePlayerEligibility, Pot.total] using ih _

theorem sum_map_ite_count (bets : List (PlayerId × Nat))
    (q : PlayerId × Nat → Bool) (amt : Nat) :
    (bets.map (fun pb => if q pb then amt else 0)).sum
      = (bets.filter q).length * amt := by
  induction bets with
  | nil => simp
  | cons e t ih =>
    by_cases hq : q e
    · have hlen : (List.filter q (e :: t)).length
          = (List.filter q t).length + 1 := by
        simp [List.filter_cons, hq]
      rw [List.map_cons, List.sum_cons, hlen, Nat.succ_mul, ← ih]
      simp [hq]
      omega
    · have hlen : (List.filter q (e :: t)).length
          = (List.filter q t).length := by
        simp [List.filter_cons, hq]
      rw [List.map_cons, List.sum_cons, hlen, ← ih]
      simp [hq]

theorem getLastD_self_or_mem (l : List Nat) (d : Nat) :
    l.getLastD d = d ∨ l.getLastD d ∈ l := by
  induction l generalizing d with
  | nil => exact Or.inl rfl
  | cons x t ih =>
    rw [List.getLastD_cons]
    rcases ih x with h | h
    · exact Or.inr (by rw [h]; exact List.mem_cons_self x t)
    · exact Or.inr (List.mem_cons_of_mem x h)

theorem sorted_le_getLastD (l : List Nat) (hs : l.Sorted (· ≤ ·)) (x : Nat)
    (hx : x ∈ l) (d : Nat) : x ≤ l.getLastD d := by
  induction l generalizing d with
  | nil => simp at hx
  | cons a t ih =>
    rw [List.getLastD_cons]
    rcases List.mem_cons.mp hx with rfl | hx'
    · rcases getLastD_self_or_mem t x with h | h
      · omega
      · exact List.rel_of_sorted_cons hs _ h
    · exact ih (List.sorted_cons.mp hs).2 hx' a

theorem collectFromPlayers_spec (bets : List (PlayerId × Nat))
    (hnd : (bets.map (fun e => e.1)).Nodup) (amt : Nat) (ha : amt ≠ 0) :
    ∀ (ps : List PlayerId), ps.Nodup →
      (∀ p ∈ ps, p ∈ bets.map (fun e => e.1)) →
      ∀ (f : PlayerId × Nat → Nat) (pot : Pot),
      ∃ pot', PotManager.collectFromPlayers amt ps pot
          (bets.map (fun pb => (pb.1, f pb))) =
        .ok (pot', bets.map (fun pb =>
          (pb.1, if pb.1 ∈ ps then f pb - amt else f pb))) ∧
        pot'.total = pot.total + ps.length * amt := by
  intro ps
  induction ps with
  | nil =>
    intro _ _ f pot
    refine ⟨pot, ?_, by simp⟩
    rw [PotManager.collectFromPlayers]
    simp
  | cons p t ih =>
    intro hndp hsub f pot
    have hpt : p ∉ t := (List.nodup_cons.mp hndp).1
    have hndt : t.Nodup := (List.nodup_cons.mp hndp).2
    obtain ⟨pb0, hpb0, hpb0k⟩ := List.mem_map.mp (hsub p (List.mem_cons_self p t))
    obtain ⟨haddeq, haddtot⟩ := addContribution_total pot p amt ha
    have hget : mapGetD (bets.map (fun pb => (pb.1, f pb))) p = f pb0 := by
      rw [← hpb0k]
      exact mapGetD_mapForm bets f hnd pb0 hpb0
    have hset : mapSet (bets.map (fun pb => (pb.1, f pb))) p (f pb0 - amt)
        = bets.map (fun pb =>
            (pb.1, if pb.1 = p then f pb - amt else f pb)) := by
      rw [← hpb0k, mapSet_mapForm bets f hnd pb0 hpb0]
      refine List.map_congr_left ?_
      intro pb hpb
      by_cases hk : pb.1 = pb0.1
      · have : pb = pb0 := entry_eq_of_nodup_keys hnd hpb hpb0 hk
        simp [hk, this]
      · simp [hk]
    obtain ⟨pot', hrec, hrectot⟩ := ih hndt
      (fun q hq => hsub q (List.mem_cons_of_mem p hq))
      (fun pb => if pb.1 = p then f pb - amt else f pb) _
    have hform : bets.map (fun pb =>
          (pb.1, if pb.1 ∈ t then
            (if pb.1 = p then f pb - amt else f pb) - amt
          else (if pb.1 = p then f pb - amt else f pb)))
        = bets.map (fun pb =>
          (pb.1, if pb.1 ∈ p :: t then f pb - amt else f pb)) := by
      refine List.map_congr_left ?_
      intro pb hpb
      by_cases hk : pb.1 = p
      · simp [hk, hpt]
      · simp [hk]
    refine ⟨pot', ?_, ?_⟩
    · rw [PotManager.collectFromPlayers, haddeq]
      dsimp only
      rw [hget, hset, hrec, hform]
    · rw [hrectot, haddtot, List.length_cons, Nat.succ_mul]
      omega

theorem sum_map_add (l : List (PlayerId × Nat)) (f g : PlayerId × Nat → Nat) :
    (l.map f).sum + (l.map g).sum = (l.map (fun x => f x + g x)).sum := by
  induction l with
  | nil => simp
  | cons e t ih =>
    simp only [List.map_cons, List.sum_cons, ← ih]
    omega

theorem collectLevels_spec (folded : List PlayerId) (bets : List (PlayerId × Nat))
    (hnd : (bets.map (fun e => e.1)).Nodup) :
    ∀ (levels : List Nat), levels.Sorted (· < ·) →
      ∀ (prev : Nat) (pm : PotManager),
      (∀ l ∈ levels, prev < l) →
      (∀ pb ∈ bets, prev < pb.2 → pb.2 ∈ levels) →
      ∃ pm', PotManager.collectLevels folded prev levels
          (bets.map (fun pb => (pb.1, pb.2 - min pb.2 prev))) pm = .ok pm' ∧
        pm'.getTotalPotAmount = pm.getTotalPotAmount +
          (bets.map (fun pb =>
            min pb.2 (levels.getLastD prev) - min pb.2 prev)).sum := by
  intro levels
  induction levels with
  | nil =>
    intro _ prev pm _ _
    refine ⟨pm, ?_, by simp⟩
    rw [PotManager.collectLevels]
  | cons l rest ih =>
    intro hsort prev pm hgt hin
    have hl : prev < l := hgt l (List.mem_cons_self l rest)
    have hamt : l - prev ≠ 0 := by omega
    have hrest_sorted : rest.Sorted (· < ·) := (List.sorted_cons.mp hsort).2
    have hrest_gt : ∀ x ∈ rest, l < x := (List.sorted_cons.mp hsort).1
    have hno : ∀ pb ∈ bets, prev < pb.2 → l ≤ pb.2 := by
      intro pb hpb hgt2
      rcases List.mem_cons.mp (hin pb hpb hgt2) with h | h
      · omega
      · exact le_of_lt (hrest_gt _ h)
    have hlL : l ≤ rest.getLastD l := by
      rcases getLastD_self_or_mem rest l with h | h
      · omega
      · exact le_of_lt (hrest_gt _ h)
    have hps : (List.map (fun e => e.1)
          (List.filter (fun e => decide (l - prev ≤ e.2))
            (List.map (fun pb => (pb.1, pb.2 - min pb.2 prev)) bets)))
        = (bets.filter (fun pb => decide (l ≤ pb.2))).map (fun e => e.1) := by
      have hfc : List.filter (fun pb : PlayerId × Nat =>
            decide (l - prev ≤ pb.2 - min pb.2 prev)) bets
          = List.filter (fun pb => decide (l ≤ pb.2)) bets := by
        refine List.filter_congr ?_
        intro pb hpb
        rw [decide_eq_decide]
        omega
      rw [filter_of_mapForm bets (fun pb => pb.2 - min pb.2 prev)
        (fun v => decide (l - prev ≤ v)), hfc, List.map_map]
      rfl
    have hmem_ps : ∀ pb ∈ bets,
        (pb.1 ∈ (bets.filter (fun pb => decide (l ≤ pb.2))).map (fun e => e.1)
          ↔ l ≤ pb.2) := by
      intro pb hpb
      constructor
      · intro hm
        obtain ⟨pb', hpb', hkeq⟩ := List.mem_map.mp hm
        obtain ⟨hpb'b, hq⟩ := List.mem_filter.mp hpb'
        have : pb' = pb := entry_eq_of_nodup_keys hnd hpb'b hpb hkeq
        exact of_decide_eq_true (this ▸ hq)
      · intro hq
        exact List.mem_map_of_mem _
          (List.mem_filter.mpr ⟨hpb, decide_eq_true hq⟩)
    simp only [PotManager.collectLevels]
    rw [hps]
    by_cases hE :
        ((bets.filter (fun pb => decide (l ≤ pb.2))).map (fun e => e.1)).isEmpty
          = true
    · -- no player reaches this level: every bet is at most prev
      have hfilnil : bets.filter (fun pb => decide (l ≤ pb.2)) = [] := by
        have := List.isEmpty_iff.mp hE
        exact List.map_eq_nil_iff.mp this
      have hall : ∀ pb ∈ bets, pb.2 ≤ prev := by
        intro pb hpb
        have hnq : ¬ l ≤ pb.2 := by
          intro hq
          have : pb ∈ bets.filter (fun pb => decide (l ≤ pb.2)) :=
            List.mem_filter.mpr ⟨hpb, decide_eq_true hq⟩
          rw [hfilnil] at this
          simp at this
        have := hno pb hpb
        omega
      rw [if_pos hE]
      have hrem : List.map (fun pb => (pb.1, pb.2 - min pb.2 prev)) bets
          = List.map (fun pb => (pb.1, pb.2 - min pb.2 l)) bets := by
        refine List.map_congr_left ?_
        intro pb hpb
        have := hall pb hpb
        have hv : pb.2 - min pb.2 prev = pb.2 - min pb.2 l := by omega
        rw [hv]
      rw [hrem]
      obtain ⟨pm', hrun, htot⟩ := ih hrest_sorted l pm hrest_gt
        (by
          intro pb hpb hlt
          have := hall pb hpb
          omega)
      refine ⟨pm', hrun, ?_⟩
      rw [htot, List.getLastD_cons]
      congr 1
      congr 1
      refine List.map_congr_left ?_
      intro pb hpb
      have := hall pb hpb
      omega
    · -- at least one player contributes at this level
      rw [if_neg hE]
      obtain ⟨pot', hcfp, hcfptot⟩ := collectFromPlayers_spec bets hnd
        (l - prev) hamt
        ((bets.filter (fun pb => decide (l ≤ pb.2))).map (fun e => e.1))
        (hnd.sublist ((List.filter_sublist bets).map (fun e => e.1)))
        (by
          intro p hp
          obtain ⟨pb', hpb', hkeq⟩ := List.mem_map.mp hp
          exact hkeq ▸ List.mem_map_of_mem _ (List.mem_filter.mp hpb').1)
        (fun pb => pb.2 - min pb.2 prev)
        (Pot.new (List.filter (fun id => decide (id ∉ folded))
          ((bets.filter (fun pb => decide (l ≤ pb.2))).map (fun e => e.1))))
      rw [hcfp]
      dsimp only
      have hrem2 : (bets.map (fun pb =>
            (pb.1, if pb.1 ∈ (bets.filter (fun pb => decide (l ≤ pb.2))).map
                (fun e => e.1) then
              (pb.2 - min pb.2 prev) - (l - prev)
            else pb.2 - min pb.2 prev)))
          = List.map (fun pb => (pb.1, pb.2 - min pb.2 l)) bets := by
        refine List.map_congr_left ?_
        intro pb hpb
        by_cases hq : l ≤ pb.2
        · rw [if_pos ((hmem_ps pb hpb).mpr hq)]
          have hv : (pb.2 - min pb.2 prev) - (l - prev) = pb.2 - min pb.2 l := by
            omega
          rw [hv]
        · rw [if_neg (fun hm => hq ((hmem_ps pb hpb).mp hm))]
          have := hno pb hpb
          have hv : pb.2 - min pb.2 prev = pb.2 - min pb.2 l := by omega
          rw [hv]
      rw [hrem2]
      obtain ⟨pm', hrun, htot⟩ := ih hrest_sorted l
        (if pm.mainPot.total = 0 then
          PotManager.mk (List.foldl (fun po f => po.removePlayerEligibility f)
            pot' folded) pm.sidePots
        else
          PotManager.mk pm.mainPot (pm.sidePots ++
            [List.foldl (fun po f => po.removePlayerEligibility f) pot' folded]))
        hrest_gt
        (by
          intro pb hpb hlt
          rcases List.mem_cons.mp (hin pb hpb (by omega)) with h | h
          · omega
          · exact h)
      refine ⟨pm', hrun, ?_⟩
      have hnewtot :
          (if pm.mainPot.total = 0 then
            PotManager.mk (List.foldl (fun po f => po.removePlayerEligibility f)
              pot' folded) pm.sidePots
          else
            PotManager.mk pm.mainPot (pm.sidePots ++
              [List.foldl (fun po f => po.removePlayerEligibility f) pot' folded])
          ).getTotalPotAmount = pm.getTotalPotAmount + pot'.total := by
        by_cases h0 : pm.mainPot.total = 0
        · rw [if_pos h0]
          simp only [PotManager.getTotalPotAmount, total_fold_removeEligibility]
          omega
        · rw [if_neg h0]
          simp only [PotManager.getTotalPotAmount, List.map_append,
            List.sum_append, List.map_cons, List.sum_cons, List.map_nil,
            List.sum_nil, total_fold_removeEligibility]
          omega
      rw [htot, hnewtot, hcfptot, List.getLastD_cons]
      have hpotnew : (Pot.new (List.filter (fun id => decide (id ∉ folded))
          ((bets.filter (fun pb => decide (l ≤ pb.2))).map (fun e => e.1)))).total
          = 0 := rfl
      rw [hpotnew]
      have hlen : ((bets.filter (fun pb => decide (l ≤ pb.2))).map
          (fun e => e.1)).length
          = (bets.filter (fun pb => decide (l ≤ pb.2))).length :=
        List.length_map _ _
      rw [hlen]
      have hsum1 : (bets.map (fun pb => min pb.2 l - min pb.2 prev)).sum
          = (bets.filter (fun pb => decide (l ≤ pb.2))).length * (l - prev) := by
        rw [← sum_map_ite_count bets (fun pb => decide (l ≤ pb.2)) (l - prev)]
        congr 1
        refine List.map_congr_left ?_
        intro pb hpb
        by_cases hq : l ≤ pb.2
        · rw [decide_eq_true hq, if_pos rfl]
          omega
        · rw [decide_eq_false hq]
          have := hno pb hpb
          simp only [Bool.false_eq_true, if_false]
          omega
      have hsplit : (bets.map (fun pb =>
            min pb.2 (rest.getLastD l) - min pb.2 prev)).sum
          = (bets.map (fun pb => min pb.2 l - min pb.2 prev)).sum
            + (bets.map (fun pb =>
                min pb.2 (rest.getLastD l) - min pb.2 l)).sum := by
        rw [sum_map_add]
        refine congrArg List.sum (List.map_congr_left ?_)
        intro pb hpb
        omega
      rw [hsplit, hsum1]
      omega


/-- C2: `collectBets` on a round of positive contributions keyed by
distinct player ids always succeeds, and the total chips across the main
pot and all side pots grow by exactly the sum of the collected
contributions: chips are conserved by pot collection. -/
theorem collectBets_conserves_total (pm : PotManager)
    (bets : List (PlayerId × Nat)) (allIn folded : List PlayerId)
    (hnd : (bets.map (fun e => e.1)).Nodup)
    (hpos : ∀ pb ∈ bets, 0 < pb.2) :
    ∃ pm', PotManager.collectBets pm bets allIn folded = .ok pm' ∧
      pm'.getTotalPotAmount
        = pm.getTotalPotAmount + (bets.map (fun e => e.2)).sum := by
  by_cases hb : bets = []
  · subst hb
    exact ⟨pm, rfl, by simp⟩
  · have hbe : bets.isEmpty = false := List.isEmpty_eq_false.mpr hb
    have hfil : ((bets.map (fun e => e.2)).filter (fun amt => decide (0 < amt)))
        = bets.map (fun e => e.2) := by
      refine List.filter_eq_self.mpr ?_
      intro a ha
      obtain ⟨pb, hpb, rfl⟩ := List.mem_map.mp ha
      exact decide_eq_true (hpos pb hpb)
    have hperm : (List.insertionSort (fun a b => a ≤ b)
          ((bets.map (fun e => e.2)).dedup)).Perm
        ((bets.map (fun e => e.2)).dedup) :=
      List.perm_insertionSort _ _
    have hsorted_le : (List.insertionSort (fun a b => a ≤ b)
        ((bets.map (fun e => e.2)).dedup)).Sorted (· ≤ ·) :=
      List.sorted_insertionSort _ _
    have hnodupL : (List.insertionSort (fun a b => a ≤ b)
        ((bets.map (fun e => e.2)).dedup)).Nodup :=
      hperm.nodup_iff.mpr (List.nodup_dedup _)
    have hsortedL : (List.insertionSort (fun a b => a ≤ b)
        ((bets.map (fun e => e.2)).dedup)).Sorted (· < ·) :=
      hsorted_le.lt_of_le hnodupL
    have hmemL : ∀ pb ∈ bets, pb.2 ∈ List.insertionSort (fun a b => a ≤ b)
        ((bets.map (fun e => e.2)).dedup) := by
      intro pb hpb
      rw [hperm.mem_iff, List.mem_dedup]
      exact List.mem_map_of_mem _ hpb
    have hgtL : ∀ l ∈ List.insertionSort (fun a b => a ≤ b)
        ((bets.map (fun e => e.2)).dedup), 0 < l := by
      intro l hl
      rw [hperm.mem_iff, List.mem_dedup] at hl
      obtain ⟨pb, hpb, rfl⟩ := List.mem_map.mp hl
      exact hpos pb hpb
    have hneL : (List.insertionSort (fun a b => a ≤ b)
        ((bets.map (fun e => e.2)).dedup)).isEmpty = false := by
      rw [List.isEmpty_eq_false]
      intro h0
      have hded : (bets.map (fun e => e.2)).dedup = [] :=
        (h0 ▸ hperm.symm).eq_nil
      exact hb (List.map_eq_nil_iff.mp ((List.dedup_eq_nil _).mp hded))
    have hrem0 : bets.map (fun pb => (pb.1, pb.2 - min pb.2 0)) = bets := by
      simp
    obtain ⟨pm', hrun, htot⟩ := collectLevels_spec folded bets hnd
      (List.insertionSort (fun a b => a ≤ b) ((bets.map (fun e => e.2)).dedup))
      hsortedL 0 pm hgtL (fun pb hpb _ => hmemL pb hpb)
    rw [hrem0] at hrun
    refine ⟨pm', ?_, ?_⟩
    · unfold PotManager.collectBets
      simp only [hbe, hfil, hneL, Bool.false_eq_true, if_false]
      exact hrun
    · rw [htot]
      congr 1
      refine congrArg List.sum (List.map_congr_left ?_)
      intro pb hpb
      have h1 : pb.2 ≤ (List.insertionSort (fun a b => a ≤ b)
          ((bets.map (fun e => e.2)).dedup)).getLastD 0 :=
        sorted_le_getLastD _ hsorted_le _ (hmemL pb hpb) 0
      omega

/-- Witness for C2: a concrete three-player round (one all-in, one
folded) with distinct positive bets of 50, 200 and 120. -/
theorem collectBets_conserves_total_witness :
    ∃ pm', PotManager.collectBets PotManager.new
        [("a", 50), ("b", 200), ("c", 120)] ["a"] ["c"] = .ok pm' ∧
      pm'.getTotalPotAmount
        = PotManager.new.getTotalPotAmount
          + (([("a", 50), ("b", 200), ("c", 120)] : List (PlayerId × Nat)).map
              (fun e => e.2)).sum :=
  collectBets_conserves_total PotManager.new
    [("a", 50), ("b", 200), ("c", 120)] ["a"] ["c"] (by decide) (by decide)

end Poker
